import Mathlib

/-!
Verification of the tag-sniffer dashboard's parsing/normalization engine and
static HTML renderer, shallowly embedded from `scripts/dashboard.py` and
`scripts/html_report.py`.

File contents are modelled as the list of lines produced by Python's
`readlines`, with the trailing newline of each line already removed (every
parser in the source immediately strips it via `rstrip("\n")` / `strip()`);
such lines contain no interior newline.  Python exceptions (FileNotFoundError
raised by `open`, ValueError raised by `int`) are modelled with `Except`.
A missing input file is modelled as the `none` case of `Option (List String)`.
All character-class tests model Python's behaviour on ASCII text, which is
the `\w` / `\s` / `str.strip` behaviour relevant to these report files.
-/

set_option maxRecDepth 16000

namespace TagSniffer

/-- The whitespace characters stripped by Python's `str.strip()` and matched
by `\s` (ASCII range): space, tab, newline, carriage return, vertical tab,
form feed. -/
def pyIsSpace (c : Char) : Bool :=
  c = ' ' || c = '\t' || c = '\n' || c = '\r' || c = Char.ofNat 11 || c = Char.ofNat 12

/-- `str.strip()` on the character list: drop whitespace from both ends. -/
def stripL (l : List Char) : List Char :=
  ((l.dropWhile pyIsSpace).reverse.dropWhile pyIsSpace).reverse

/-- Python `str.strip()`. -/
def pyStrip (s : String) : String :=
  ⟨stripL s.data⟩

/-- Python `str.startswith(pre)`. -/
def pyStartsWith (s pre : String) : Bool :=
  pre.data.isPrefixOf s.data

/-- A character matched by Python's regex `\w` (ASCII): letters, digits, `_`. -/
def wordChar (c : Char) : Bool :=
  c.isAlphanum || c = '_'

/-- The decimal digit character for `n % 10`. -/
def pyDigitChar (n : Nat) : Char :=
  match n with
  | 0 => '0' | 1 => '1' | 2 => '2' | 3 => '3' | 4 => '4'
  | 5 => '5' | 6 => '6' | 7 => '7' | 8 => '8' | 9 => '9'
  | _ => '0'

/-- Decimal digits of `n`, most significant first, computed with a fuel
argument (`fuel > n` suffices, and the wrapper below supplies `n + 1`) so the
definition is structural and kernel-reducible. -/
def natCharsAux : Nat → Nat → List Char
  | 0, _ => []
  | fuel + 1, n =>
    if n < 10 then [pyDigitChar n]
    else natCharsAux fuel (n / 10) ++ [pyDigitChar (n % 10)]

/-- Decimal digits of `n`, most significant first. -/
def natChars (n : Nat) : List Char :=
  natCharsAux (n + 1) n

/-- Python `str(n)` for a natural number. -/
def pyNatRepr (n : Nat) : String :=
  ⟨natChars n⟩

/-- Python `str(i)` for an integer. -/
def pyIntRepr (i : Int) : String :=
  if i < 0 then "-" ++ pyNatRepr i.natAbs else pyNatRepr i.natAbs

/-- Insert a thousands-separator comma after every third character of a
reversed digit list. -/
def commaRev : List Char → List Char
  | d1 :: d2 :: d3 :: d4 :: rest => d1 :: d2 :: d3 :: ',' :: commaRev (d4 :: rest)
  | l => l

/-- Python `f"{n:,}"` for a natural number: decimal digits grouped by
thousands with commas. -/
def pyNatComma (n : Nat) : String :=
  ⟨(commaRev (natChars n).reverse).reverse⟩

/-- Python `f"{i:,}"` for an integer. -/
def pyIntComma (i : Int) : String :=
  if i < 0 then "-" ++ pyNatComma i.natAbs else pyNatComma i.natAbs

/-- Digit-run tail of Python's integer-literal grammar: after a leading
digit, each further character is a digit or a single underscore that must be
followed by a digit. -/
def dvRest : List Char → Bool
  | [] => true
  | '_' :: c :: rest => c.isDigit && dvRest rest
  | '_' :: [] => false
  | c :: rest => c.isDigit && dvRest rest

/-- Python's integer-literal digit grammar: nonempty, starts with a digit,
underscores only between digits. -/
def dv : List Char → Bool
  | [] => false
  | c :: rest => c.isDigit && dvRest rest

/-- Numeric value of a digit list, ignoring underscore separators. -/
def digitsVal (l : List Char) : Nat :=
  l.foldl (fun a c => if c = '_' then a else a * 10 + (c.toNat - 48)) 0

/-- Python `int(s)` on a decimal string: strips surrounding whitespace,
allows one optional sign, then requires a valid digit run; returns `none`
where Python raises `ValueError`. -/
def pyInt (s : String) : Option Int :=
  let t := (pyStrip s).data
  match t with
  | '+' :: r => if dv r then some (Int.ofNat (digitsVal r)) else none
  | '-' :: r => if dv r then some (-Int.ofNat (digitsVal r)) else none
  | r => if dv r then some (Int.ofNat (digitsVal r)) else none

/-- Python `str.split()` (no argument): split on runs of whitespace,
discarding empty fields, on the character list. -/
def splitWsL (l : List Char) : List (List Char)
  :=
  match h : l.dropWhile pyIsSpace with
  | [] => []
  | c :: t =>
    (c :: t.takeWhile (fun d => !pyIsSpace d)) ::
      splitWsL (t.dropWhile (fun d => !pyIsSpace d))
  termination_by l.length
  decreasing_by
    have h1 : (l.dropWhile pyIsSpace).length ≤ l.length :=
      (List.dropWhile_sublist pyIsSpace).length_le
    have h2 : (t.dropWhile (fun d => !pyIsSpace d)).length ≤ t.length :=
      (List.dropWhile_sublist (fun d => !pyIsSpace d)).length_le
    have h3 : (c :: t).length ≤ l.length := by rw [← h]; exact h1
    simp only [List.length_cons] at h3
    omega

/-- Python `str.split()` on a string. -/
def pySplitWs (s : String) : List String :=
  (splitWsL s.data).map fun l => ⟨l⟩

/-- Python `str.split(sep, 1)` when `sep` is nonempty: split at the first
occurrence of `sep`, returning `none` when `sep` does not occur (Python then
returns a single-element list). -/
def splitOnceL (sep : List Char) : List Char → Option (List Char × List Char)
  | [] => if sep.isPrefixOf [] then some ([], ([] : List Char).drop sep.length) else none
  | c :: t =>
    if sep.isPrefixOf (c :: t) then some ([], (c :: t).drop sep.length)
    else (splitOnceL sep t).map fun p => (c :: p.1, p.2)

/-- Python `s.split(sep, 1)` packaged as the two parts, or `none` when the
separator is absent. -/
def pySplitOnce (s sep : String) : Option (String × String) :=
  (splitOnceL sep.data s.data).map fun p => (⟨p.1⟩, ⟨p.2⟩)

/-!
## The tag-line grammar

`re.match(r"^\((\w{4},\w{4})\)\s+(\w+)\s+(.+)$", line)` from `dashboard.py`.
Because `\w` and `\s` are disjoint character classes, the runs consumed by
`\s+`, `(\w+)` and the second `\s+` are forced to be the maximal runs of
their classes — with one exception, coming from backtracking into the
second `\s+` because `.` also matches whitespace: when the tail after the
VR is entirely whitespace, `(.+)$` has nothing left after the maximal
whitespace run, so the engine gives one whitespace character back, and the
line matches with the final whitespace character as the keyword — provided
that whitespace run has length at least 2 (`\s+` still needs one
character).  So `"(0010,0010) PN  "` matches with keyword `" "`, while
`"(0010,0010) PN "` does not match.  When the tail does not end in the
whitespace run, the keyword is simply the (nonempty) remainder after the
maximal second whitespace run.
-/

/-- Scan the parenthesised tag: four word characters, a comma, four word
characters, a closing parenthesis; returns the `GGGG,EEEE` text and the rest
of the line. -/
def scanTag (l : List Char) : Option (List Char × List Char) :=
  match l with
  | g1 :: g2 :: g3 :: g4 :: ',' :: e1 :: e2 :: e3 :: e4 :: ')' :: rest =>
    if wordChar g1 && wordChar g2 && wordChar g3 && wordChar g4 &&
       wordChar e1 && wordChar e2 && wordChar e3 && wordChar e4 then
      some ([g1, g2, g3, g4, ',', e1, e2, e3, e4], rest)
    else none
  | _ => none

/-- Model of `re.match(r"^\((\w{4},\w{4})\)\s+(\w+)\s+(.+)$", line)`,
returning the three captured groups `(tag, vr, keyword)`. -/
def matchTagLine (line : String) : Option (String × String × String) :=
  match line.data with
  | '(' :: rest =>
    match scanTag rest with
    | none => none
    | some (tag, rest1) =>
      let sp1 := rest1.takeWhile pyIsSpace
      let rest2 := rest1.dropWhile pyIsSpace
      let vr := rest2.takeWhile wordChar
      let rest3 := rest2.dropWhile wordChar
      let sp2 := rest3.takeWhile pyIsSpace
      let rest4 := rest3.dropWhile pyIsSpace
      if sp1 ≠ [] && vr ≠ [] && sp2 ≠ [] then
        if rest4 ≠ [] then some (⟨tag⟩, ⟨vr⟩, ⟨rest4⟩)
        else if 2 ≤ sp2.length then
          match sp2.getLast? with
          | some c => some (⟨tag⟩, ⟨vr⟩, ⟨[c]⟩)
          | none => none
        else none
      else none
  | _ => none

/-!
## Ordered dictionaries

Python `dict` / `OrderedDict` values are modelled as association lists in
insertion order.  Assigning to an existing key replaces its value in place
(keeping its position); assigning to a new key appends.
-/

/-- First binding of key `k`, modelling `d[k]` / `d.get(k)`. -/
def alGet {β : Type} (d : List (String × β)) (k : String) : Option β :=
  (d.find? fun p => p.1 = k).map Prod.snd

/-- The keys of the dictionary in order. -/
def alKeys {β : Type} (d : List (String × β)) : List String :=
  d.map Prod.fst

/-- Membership test `k in d`. -/
def alHasKey {β : Type} (d : List (String × β)) (k : String) : Bool :=
  d.any fun p => p.1 = k

/-- Dictionary assignment `d[k] = v`: replace in place if present, else
append. -/
def alSet {β : Type} (d : List (String × β)) (k : String) (v : β) :
    List (String × β) :=
  if alHasKey d k then d.map fun p => if p.1 = k then (k, v) else p
  else d ++ [(k, v)]

/-- `d[k].append(x)` for a list-valued entry nested via `f`: update the
binding of `k` by `f`. -/
def alModify {β : Type} (d : List (String × β)) (k : String) (f : β → β) :
    List (String × β) :=
  d.map fun p => if p.1 = k then (k, f p.2) else p

/-!
## Data model and parsers (`dashboard.py`)
-/

/-- One standard element: VR code, keyword, observed values (file order). -/
structure TagEntry where
  vr : String
  keyword : String
  values : List String
  deriving DecidableEq, Repr

/-- `parse_standard_elements`'s result: ordered mapping tag → entry. -/
def StandardCatalog := List (String × TagEntry)

/-- Phase-1 state of `parse_standard_elements`: the `in_listing` flag, the
`tag_list` accumulator and the elements dictionary. -/
structure Phase1State where
  inListing : Bool
  tagList : List (String × String × String)
  elements : List (String × TagEntry)
  deriving DecidableEq, Repr

/-- One line of phase 1 of `parse_standard_elements` (the tag listing). -/
def phase1Step (st : Phase1State) (line : String) : Phase1State :=
  if line = "List of Standard Elements" then { st with inListing := true }
  else if st.inListing then
    match matchTagLine line with
    | some (t, vr, kw) =>
      { st with tagList := st.tagList ++ [(t, vr, kw)],
                elements := alSet st.elements t ⟨vr, kw, []⟩ }
    | none =>
      if pyStrip line = "" then
        if st.tagList ≠ [] then { st with inListing := false } else st
      else st
  else st

/-- Phase 1 of `parse_standard_elements` over all lines. -/
def phase1 (lines : List String) : Phase1State :=
  lines.foldl phase1Step ⟨false, [], []⟩

/-- Phase-2 state: the current-tag context and the elements dictionary. -/
structure Phase2State where
  current : Option String
  elements : List (String × TagEntry)
  deriving DecidableEq, Repr

/-- One line of phase 2 of `parse_standard_elements` (the values pass). -/
def phase2Step (st : Phase2State) (line : String) : Phase2State :=
  match matchTagLine line with
  | some (t, _, _) =>
    { st with current := if alHasKey st.elements t then some t else none }
  | none =>
    match st.current with
    | some t =>
      if pyStartsWith line "  " then
        { st with elements :=
            alModify st.elements t fun e =>
              { e with values := e.values ++ [pyStrip line] } }
      else st
    | none => st

/-- Phase 2 of `parse_standard_elements`, rescanning all lines with the
phase-1 catalog. -/
def phase2 (elements : List (String × TagEntry)) (lines : List String) :
    List (String × TagEntry) :=
  (lines.foldl phase2Step ⟨none, elements⟩).elements

/-- `parse_standard_elements` on the file's lines. -/
def parse_standard_elements_lines (lines : List String) : StandardCatalog :=
  phase2 (phase1 lines).elements lines

/-- Separator search of `parse_private_elements`: the first blank line at
index strictly greater than 2 (indices from 0). -/
def privSepIdx : Nat → List String → Option Nat
  | _, [] => none
  | i, l :: ls =>
    if pyStrip l = "" ∧ i > 2 then some i else privSepIdx (i + 1) ls

/-- State for the values region of `parse_private_elements` and for the
sequence parser: current key and ordered key → values mapping. -/
structure KVState where
  current : Option String
  elements : List (String × List String)
  deriving DecidableEq, Repr

/-- One line of the values region of `parse_private_elements`. -/
def privStep (st : KVState) (line : String) : KVState :=
  if pyStrip line = "" then st
  else if !pyStartsWith line "  " then
    let k := pyStrip line
    { current := some k,
      elements := if alHasKey st.elements k then st.elements
                  else st.elements ++ [(k, [])] }
  else
    match st.current with
    | some k =>
      { st with elements := alModify st.elements k fun vs => vs ++ [pyStrip line] }
    | none => st

/-- `parse_private_elements` on the file's lines. -/
def parse_private_elements_lines (lines : List String) :
    List (String × List String) :=
  match privSepIdx 0 lines with
  | none => []
  | some sep =>
    ((lines.drop (sep + 1)).foldl privStep ⟨none, []⟩).elements

/-- Skip test of `parse_sequences`: the two literal header prefixes and
blank lines. -/
def seqSkip (line : String) : Bool :=
  pyStartsWith line "Standard Sequence" || pyStartsWith line "Private Sequence" ||
    pyStrip line = ""

/-- One line of `parse_sequences`. -/
def seqStep (st : KVState) (line : String) : KVState :=
  if seqSkip line then st
  else if pyStartsWith line "  " then
    match st.current with
    | some k =>
      { st with elements := alModify st.elements k fun vs => vs ++ [pyStrip line] }
    | none => st
  else
    let k := pyStrip line
    { current := some k,
      elements := if alHasKey st.elements k then st.elements
                  else st.elements ++ [(k, [])] }

/-- `parse_sequences` on the file's lines. -/
def parse_sequences_lines (lines : List String) : List (String × List String) :=
  (lines.foldl seqStep ⟨none, []⟩).elements

/-- The composite key `f"({tag_hex}) {vr} {keyword}"` of `parse_date_time`. -/
def dtKey (t vr kw : String) : String :=
  "(" ++ t ++ ") " ++ vr ++ " " ++ kw

/-- One line of `parse_date_time`.  Re-encountering a composite key assigns
a fresh empty list to it (`elements[current_key] = []`), the documented
overwrite quirk. -/
def dtStep (st : KVState) (line : String) : KVState :=
  if line = "Date/Time Elements" ∨ pyStrip line = "" then st
  else
    match matchTagLine line with
    | some (t, vr, kw) =>
      let k := dtKey t vr kw
      { current := some k, elements := alSet st.elements k [] }
    | none =>
      match st.current with
      | some k =>
        if pyStartsWith line "  " then
          { st with elements := alModify st.elements k fun vs => vs ++ [pyStrip line] }
        else st
      | none => st

/-- `parse_date_time` on the file's lines. -/
def parse_date_time_lines (lines : List String) : List (String × List String) :=
  (lines.foldl dtStep ⟨none, []⟩).elements

/-- `parse_simple_list` on the file's lines: skip the header line, keep
every nonempty stripped line. -/
def parse_simple_list_lines (lines : List String) : List String :=
  (lines.drop 1).filterMap fun l =>
    let v := pyStrip l
    if v ≠ "" then some v else none

/-- One row of `counts.txt`: all fields carried as raw text. -/
structure CountsRow where
  studyUID : String
  files : String
  over1KB : String
  over20KB : String
  over50KB : String
  deriving DecidableEq, Repr

/-- `parse_counts` on the file's lines: skip the header, split each
nonblank line on whitespace, keep lines with at least six fields, taking
fields 0, 2, 3, 4, 5. -/
def parse_counts_lines (lines : List String) : List CountsRow :=
  (lines.drop 1).filterMap fun raw =>
    let line := pyStrip raw
    if line = "" then none
    else
      let parts := pySplitWs line
      if parts.length ≥ 6 then
        some ⟨parts.getD 0 "", parts.getD 2 "", parts.getD 3 "",
              parts.getD 4 "", parts.getD 5 ""⟩
      else none

/-- One row of `private_creators.txt`. -/
structure CreatorRow where
  tag : String
  creatorID : String
  deriving DecidableEq, Repr

/-- `parse_private_creators` on the file's lines: keep stripped lines that
are nonempty, differ from the header label, and split on the first tab. -/
def parse_private_creators_lines (lines : List String) : List CreatorRow :=
  lines.filterMap fun raw =>
    let line := pyStrip raw
    if line ≠ "" ∧ line ≠ "Private Creators" then
      match pySplitOnce line "\t" with
      | some (a, b) => some ⟨a, b⟩
      | none => none
    else none

/-- One row of `large_private_elements.txt`: the unvalidated hash text and
the parsed occurrence count. -/
structure LpeRow where
  hash : String
  cnt : Int
  deriving DecidableEq, Repr

/-- Python exceptions the embedded code can raise. -/
inductive PyErr where
  | fileNotFound
  | valueError
  deriving DecidableEq, Repr

/-- One line of `parse_large_private_elements`: strip, require the literal
prefix `Hash: `, split once on `, count: `; when the separator is present
the trailing text goes through `int(...)`, whose failure raises
`ValueError`.  Returns the parsed row, `none` for an ignored line. -/
def lpeLine (raw : String) : Except PyErr (Option LpeRow) :=
  let line := pyStrip raw
  if pyStartsWith line "Hash: " then
    match pySplitOnce line ", count: " with
    | some (before, after) =>
      match pyInt after with
      | some n => .ok (some ⟨⟨before.data.drop 6⟩, n⟩)
      | none => .error .valueError
    | none => .ok none
  else .ok none

/-- `parse_large_private_elements` on the file's lines, accumulating rows
until the first raised exception. -/
def parse_large_private_lines : List String → Except PyErr (List LpeRow)
  | [] => .ok []
  | l :: ls =>
    match lpeLine l with
    | .error e => .error e
    | .ok o =>
      match parse_large_private_lines ls with
      | .error e => .error e
      | .ok rows => .ok (o.toList ++ rows)

/-!
## File-level behaviour: missing input files

`parse_sequences`, `parse_simple_list`, `parse_counts`,
`parse_private_creators` and `parse_large_private_elements` begin with an
`os.path.exists` guard and return their empty container for a missing file.
`parse_standard_elements`, `parse_private_elements` and `parse_date_time`
have no guard: `open` raises `FileNotFoundError`.  Their callers
(`dashboard.main`, `generate_html_report`) substitute `{}` after their own
existence check.
-/

/-- `parse_standard_elements` on an optional file. -/
def parse_standard_elements_file (c : Option (List String)) :
    Except PyErr StandardCatalog :=
  match c with
  | none => .error .fileNotFound
  | some ls => .ok (parse_standard_elements_lines ls)

/-- `parse_private_elements` on an optional file. -/
def parse_private_elements_file (c : Option (List String)) :
    Except PyErr (List (String × List String)) :=
  match c with
  | none => .error .fileNotFound
  | some ls => .ok (parse_private_elements_lines ls)

/-- `parse_date_time` on an optional file. -/
def parse_date_time_file (c : Option (List String)) :
    Except PyErr (List (String × List String)) :=
  match c with
  | none => .error .fileNotFound
  | some ls => .ok (parse_date_time_lines ls)

/-- `parse_sequences` on an optional file (guarded by `os.path.exists`). -/
def parse_sequences_file (c : Option (List String)) :
    Except PyErr (List (String × List String)) :=
  match c with
  | none => .ok []
  | some ls => .ok (parse_sequences_lines ls)

/-- `parse_simple_list` on an optional file (guarded). -/
def parse_simple_list_file (c : Option (List String)) :
    Except PyErr (List String) :=
  match c with
  | none => .ok []
  | some ls => .ok (parse_simple_list_lines ls)

/-- `parse_counts` on an optional file (guarded). -/
def parse_counts_file (c : Option (List String)) :
    Except PyErr (List CountsRow) :=
  match c with
  | none => .ok []
  | some ls => .ok (parse_counts_lines ls)

/-- `parse_private_creators` on an optional file (guarded). -/
def parse_private_creators_file (c : Option (List String)) :
    Except PyErr (List CreatorRow) :=
  match c with
  | none => .ok []
  | some ls => .ok (parse_private_creators_lines ls)

/-- `parse_large_private_elements` on an optional file (guarded). -/
def parse_large_private_file (c : Option (List String)) :
    Except PyErr (List LpeRow) :=
  match c with
  | none => .ok []
  | some ls => parse_large_private_lines ls

/-- The caller-side guard `parse_standard_elements(p) if os.path.exists(p)
else {}` used in `dashboard.main` and `generate_html_report`. -/
def load_standard_elements (c : Option (List String)) : StandardCatalog :=
  match c with
  | none => []
  | some ls => parse_standard_elements_lines ls

/-- The caller-side guard for `parse_private_elements`. -/
def load_private_elements (c : Option (List String)) :
    List (String × List String) :=
  match c with
  | none => []
  | some ls => parse_private_elements_lines ls

/-- The caller-side guard for `parse_date_time`. -/
def load_date_time (c : Option (List String)) : List (String × List String) :=
  match c with
  | none => []
  | some ls => parse_date_time_lines ls

/-!
## Aggregation: total file count

`total_files = sum(int(r["Files"]) for r in counts) if counts else 0`
(`dashboard.main`, and identically `generate_html_report` and
`render_study_summary`).  `int` raises `ValueError` on a malformed field.
-/

/-- `sum(int(r["Files"]) for r in rows)`, propagating the first
`ValueError`. -/
def sumFiles : List CountsRow → Except PyErr Int
  | [] => .ok 0
  | r :: rs =>
    match pyInt r.files with
    | none => .error .valueError
    | some n =>
      match sumFiles rs with
      | .error e => .error e
      | .ok m => .ok (n + m)

/-- The aggregated total file count. -/
def totalFiles (rows : List CountsRow) : Except PyErr Int :=
  if rows.isEmpty then .ok 0 else sumFiles rows

/-!
## Static HTML renderer (`html_report.py`)
-/

/-- Per-character replacement of Python's `html.escape(s, quote=True)`.
The source applies sequential `str.replace` calls (`&` first, then `<`,
`>`, `"`, `'`), which is equivalent to this single character map. -/
def escChar (c : Char) : List Char :=
  if c = '&' then "&amp;".data
  else if c = '<' then "&lt;".data
  else if c = '>' then "&gt;".data
  else if c = '"' then "&quot;".data
  else if c = Char.ofNat 39 then "&#x27;".data
  else [c]

/-- `_esc` from `html_report.py`: `html.escape(str(text))`. -/
def esc (s : String) : String :=
  ⟨s.data.flatMap escChar⟩

/-- Python `sep.join(parts)`. -/
def pyJoin (sep : String) : List String → String
  | [] => ""
  | x :: xs => xs.foldl (fun acc y => acc ++ sep ++ y) x

/-- The per-value line of `_tag_row_html` and the private/sequence rows:
`_esc(v) if v.strip() else "&lt;empty&gt;"`. -/
def valDisplay (v : String) : String :=
  if pyStrip v ≠ "" then esc v else "&lt;empty&gt;"

/-- `_tag_row_html` from `html_report.py`. -/
def tagRowHtml (tag_hex keyword vr : String) (values : List String) : String :=
  let status :=
    if values ≠ [] then
      "<span class=\"status-review\">" ++ pyNatRepr values.length ++ " value(s)</span>"
    else "<span class=\"status-clean\">Empty / Clean</span>"
  let header :=
    "<div class=\"tag-row\">" ++ "<div class=\"tag-header\">" ++
    "<span><span class=\"tag-label\">(" ++ esc tag_hex ++ ") " ++ esc keyword ++
    "</span>" ++ "<span class=\"tag-vr\">" ++ esc vr ++ "</span></span>" ++
    status ++ "</div>"
  let valuesPart :=
    if values ≠ [] then
      "<div class=\"values\">" ++
        values.foldl (fun acc v => acc ++ ("<div>" ++ valDisplay v ++ "</div>")) "" ++
      "</div>"
    else ""
  header ++ valuesPart ++ "</div>"

/-- `_details` from `html_report.py`. -/
def detailsBlock (summary content : String) (openDefault : Bool) : String :=
  "<details" ++ (if openDefault then " open" else "") ++ "><summary>" ++
    esc summary ++ "</summary><div class=\"content\">" ++ content ++ "</div></details>"

/-- The fixed PHI taxonomy `PHI_GROUPS` from `dashboard.py`. -/
def PHI_GROUPS : List (String × List (String × String)) :=
  [("Patient Demographics",
    [("0010,0010", "PatientName"), ("0010,0020", "PatientID"),
     ("0010,0030", "PatientBirthDate"), ("0010,0040", "PatientSex"),
     ("0010,1010", "PatientAge"), ("0010,1020", "PatientSize"),
     ("0010,1030", "PatientWeight")]),
   ("Institutional / Referring",
    [("0008,0080", "InstitutionName"), ("0008,0090", "ReferringPhysicianName"),
     ("0008,1010", "StationName"), ("0008,0050", "AccessionNumber")]),
   ("Descriptions (may contain PHI)",
    [("0008,1030", "StudyDescription"), ("0008,103E", "SeriesDescription"),
     ("0008,1080", "AdmittingDiagnosesDescription"),
     ("0010,21B0", "AdditionalPatientHistory")]),
   ("De-identification Status",
    [("0012,0062", "PatientIdentityRemoved"),
     ("0012,0063", "DeidentificationMethod")]),
   ("UIDs",
    [("0008,0018", "SOPInstanceUID"), ("0020,000D", "StudyInstanceUID"),
     ("0020,000E", "SeriesInstanceUID"), ("0020,0052", "FrameOfReferenceUID"),
     ("0002,0003", "MediaStorageSOPInstanceUID"),
     ("0008,0014", "InstanceCreatorUID")]),
   ("Equipment / Protocol",
    [("0008,0070", "Manufacturer"), ("0008,1090", "ManufacturerModelName"),
     ("0018,1000", "DeviceSerialNumber"), ("0018,1020", "SoftwareVersions"),
     ("0018,1030", "ProtocolName"), ("0002,0016", "SourceApplicationEntityTitle"),
     ("0040,0241", "PerformedStationAETitle")]),
   ("Procedure Info",
    [("0020,0010", "StudyID"), ("0032,1060", "RequestedProcedureDescription"),
     ("0040,0254", "PerformedProcedureStepDescription"),
     ("0020,4000", "ImageComments"), ("0010,21C0", "PregnancyStatus")])]

/-- One PHI-group row: `std_elements.get(tag_hex, {})` resolved to values
and VR with empty defaults, fed to `_tag_row_html`. -/
def phiGroupRow (std : StandardCatalog) (p : String × String) : String :=
  let elem := alGet std p.1
  tagRowHtml p.1 p.2 ((elem.map TagEntry.vr).getD "")
    ((elem.map TagEntry.values).getD [])

/-- One collapsible PHI group of `_section_phi_review`. -/
def phiGroupBlock (std : StandardCatalog) (g : String × List (String × String)) :
    String :=
  detailsBlock g.1 (g.2.foldl (fun acc p => acc ++ phiGroupRow std p) "")
    (g.1 = "Patient Demographics")

/-- One date/time row of `_section_phi_review`. -/
def dtRowHtml (p : String × List String) : String :=
  "<div class=\"tag-row\"><span class=\"tag-label\">" ++ esc p.1 ++ "</span>" ++
  (if p.2 ≠ [] then
    "<div class=\"values\"><div>" ++ pyJoin ", " (p.2.map valDisplay) ++ "</div></div>"
   else "<div class=\"values\"><div>&lt;empty&gt;</div></div>") ++
  "</div>"

/-- The Dates & Times content of `_section_phi_review`. -/
def dtContent (dt : List (String × List String)) : String :=
  if dt ≠ [] then dt.foldl (fun acc p => acc ++ dtRowHtml p) ""
  else "<div class=\"info-box\">No date/time elements found</div>"

/-- `_section_phi_review` from `html_report.py`. -/
def sectionPhiReview (std : StandardCatalog) (dt : List (String × List String)) :
    String :=
  PHI_GROUPS.foldl (fun acc g => acc ++ phiGroupBlock std g) "<h2>PHI Review</h2>" ++
    detailsBlock "Dates & Times" (dtContent dt) false

/-- `sorted(large_priv, key=lambda r: r["Count"], reverse=True)`:
Python's stable sort in descending count order (`mergeSort` is stable and
splits ties by keeping input order). -/
def pySortDesc (l : List LpeRow) : List LpeRow :=
  l.mergeSort fun a b => decide (b.cnt ≤ a.cnt)

/-- The rendered rows of the study-summary counts table. -/
def countsTableRows (counts : List CountsRow) : String :=
  counts.foldl
    (fun acc r => acc ++
      ("<tr>" ++ "<td><code>" ++ esc r.studyUID ++ "</code></td>" ++
       "<td>" ++ esc r.files ++ "</td>" ++
       "<td>" ++ esc r.over1KB ++ "</td>" ++
       "<td>" ++ esc r.over20KB ++ "</td>" ++
       "<td>" ++ esc r.over50KB ++ "</td>" ++ "</tr>"))
    ""

/-- One row of the large-hash table. -/
def lpeRowHtml (r : LpeRow) : String :=
  "<tr><td><code>" ++ esc r.hash ++ "</code></td><td>" ++
    esc (pyIntRepr r.cnt) ++ "</td></tr>"

/-- The rendered large-hash table: header row plus the top-10 rows of the
descending stable sort. -/
def lpeTable (large : List LpeRow) : String :=
  "<div class=\"table-scroll\"><table><tr><th>SHA-256 Hash</th><th>Occurrences</th></tr>" ++
    ((pySortDesc large).take 10).foldl (fun acc r => acc ++ lpeRowHtml r) "" ++
  "</table></div>"

/-- The truncation note emitted when more than 10 unique hashes exist:
it reports the display limit and the total number of unique hashes. -/
def lpeNote (totalHashes : Nat) : String :=
  "<p><em>Showing top 10 of " ++ pyNatComma totalHashes ++
    " unique hashes. Full data available in large_private_elements.txt</em></p>"

/-- The Large Private Elements part of `_section_study_summary`. -/
def lpePart (large : List LpeRow) : String :=
  if large ≠ [] then
    "<div class=\"warning-box\">Large private elements detected. These are SHA-256 hashes of private data elements exceeding size thresholds.</div>" ++
    "<div class=\"metrics\"><div class=\"metric\"><div class=\"value\">" ++
      pyNatComma large.length ++ "</div><div class=\"label\">Unique hashes</div></div>" ++
    "<div class=\"metric\"><div class=\"value\">" ++
      pyIntComma (large.map LpeRow.cnt).sum ++
      "</div><div class=\"label\">Total occurrences</div></div></div>" ++
    lpeTable large ++
    (if large.length > 10 then lpeNote large.length else "")
  else "<div class=\"success-box\">No large private elements detected</div>"

/-- The study table / total-files part of `_section_study_summary`; the
counts branch computes `sum(int(r["Files"]) for r in counts)`, which raises
`ValueError` on a malformed field. -/
def countsPartE (counts : List CountsRow) : Except PyErr String :=
  if counts ≠ [] then
    match sumFiles counts with
    | .error e => .error e
    | .ok total =>
      .ok ("<div class=\"table-scroll\"><table><tr><th>Study UID</th><th>Files</th><th>&gt;1KB</th><th>&gt;20KB</th><th>&gt;50KB</th></tr>" ++
        countsTableRows counts ++ "</table></div>" ++
        "<div class=\"metrics\"><div class=\"metric\"><div class=\"value\">" ++
        pyIntComma total ++
        "</div><div class=\"label\">Total files</div></div></div>")
  else .ok "<div class=\"info-box\">No study data found</div>"

/-- `_section_study_summary` from `html_report.py`; the exception from a
malformed file count propagates out of the renderer. -/
def sectionStudySummary (counts : List CountsRow) (large : List LpeRow) :
    Except PyErr String :=
  match countsPartE counts with
  | .error e => .error e
  | .ok countsPart =>
    .ok ("<h2>Study Summary</h2>" ++ countsPart ++
      "<h3>Large Private Elements</h3>" ++ lpePart large)

/-- The lines of the `_CSS` literal from `html_report.py` (its exact
text, split at newlines; `pyJoin` with a newline below reassembles the
identical string). -/
def cssParts : List String :=
  ["",
   "body \x7b",
   "    font-family: -apple-system, BlinkMacSystemFont, \"Segoe UI\", Roboto, Helvetica, Arial, sans-serif;",
   "    max-width: 1100px;",
   "    margin: 0 auto;",
   "    padding: 20px 30px;",
   "    color: #000337;",
   "    background: #FAFBFF;",
   "    line-height: 1.5;",
   "\x7d",
   "h1 \x7b color: #7BA7CC; border-bottom: 2px solid #7BA7CC; padding-bottom: 8px; \x7d",
   "h2 \x7b color: #000337; margin-top: 30px; border-left: 4px solid #FF702A; padding-left: 12px; \x7d",
   "h3 \x7b color: #000337; margin-top: 20px; border-left: 3px solid #FFA929; padding-left: 10px; \x7d",
   ".header-info \x7b",
   "    background: #E8F0FE;",
   "    padding: 12px 18px;",
   "    border-radius: 6px;",
   "    margin-bottom: 20px;",
   "    font-size: 0.95em;",
   "    border-left: 4px solid #2C82FD;",
   "\x7d",
   ".header-info span \x7b margin-right: 30px; \x7d",
   ".metrics \x7b",
   "    display: flex;",
   "    gap: 16px;",
   "    flex-wrap: wrap;",
   "    margin: 16px 0;",
   "\x7d",
   ".metric \x7b",
   "    background: white;",
   "    border: 1px solid #D0DDEF;",
   "    border-radius: 8px;",
   "    padding: 14px 20px;",
   "    min-width: 140px;",
   "    text-align: center;",
   "    border-top: 3px solid #2C82FD;",
   "\x7d",
   ".metric .value \x7b font-size: 1.8em; font-weight: 700; color: #000337; \x7d",
   ".metric .label \x7b font-size: 0.85em; color: #555; margin-top: 2px; \x7d",
   "details \x7b",
   "    background: white;",
   "    border: 1px solid #D0DDEF;",
   "    border-radius: 6px;",
   "    margin: 10px 0;",
   "    padding: 0;",
   "\x7d",
   "details > summary \x7b",
   "    padding: 12px 16px;",
   "    cursor: pointer;",
   "    font-weight: 600;",
   "    font-size: 1.05em;",
   "    background: #E8F0FE;",
   "    color: #000337;",
   "    border-radius: 6px;",
   "    list-style: none;",
   "\x7d",
   "details > summary::-webkit-details-marker \x7b display: none; \x7d",
   "details > summary::before \x7b content: \"\\25B6  \"; font-size: 0.8em; color: #2C82FD; \x7d",
   "details[open] > summary::before \x7b content: \"\\25BC  \"; color: #2C82FD; \x7d",
   "details[open] > summary \x7b border-bottom: 1px solid #D0DDEF; border-radius: 6px 6px 0 0; \x7d",
   "details > .content \x7b padding: 12px 16px; \x7d",
   ".tag-row \x7b margin: 8px 0; padding: 6px 0; border-bottom: 1px solid #E8F0FE; \x7d",
   ".tag-header \x7b display: flex; justify-content: space-between; align-items: center; \x7d",
   ".tag-label \x7b font-weight: 600; font-family: monospace; font-size: 0.95em; color: #000337; \x7d",
   ".tag-vr \x7b color: #888; font-family: monospace; font-size: 0.85em; margin-left: 8px; \x7d",
   ".status-clean \x7b",
   "    display: inline-block;",
   "    background: #E0F2E9;",
   "    color: #155724;",
   "    padding: 2px 10px;",
   "    border-radius: 12px;",
   "    font-size: 0.8em;",
   "    font-weight: 600;",
   "\x7d",
   ".status-review \x7b",
   "    display: inline-block;",
   "    background: #FFF0D9;",
   "    color: #7A4D00;",
   "    padding: 2px 10px;",
   "    border-radius: 12px;",
   "    font-size: 0.8em;",
   "    font-weight: 600;",
   "    border: 1px solid #FFA929;",
   "\x7d",
   ".values \x7b margin: 4px 0 0 20px; font-family: monospace; font-size: 0.9em; color: #333; max-height: 200px; overflow-y: auto; \x7d",
   ".values div \x7b padding: 1px 0; \x7d",
   ".table-scroll \x7b",
   "    max-height: 400px;",
   "    overflow-y: auto;",
   "    margin: 10px 0;",
   "    border: 1px solid #D0DDEF;",
   "    border-radius: 6px;",
   "\x7d",
   "table \x7b",
   "    border-collapse: collapse;",
   "    width: 100%;",
   "    margin: 0;",
   "    font-size: 0.9em;",
   "\x7d",
   ".table-scroll table th \x7b",
   "    position: sticky;",
   "    top: 0;",
   "    z-index: 1;",
   "\x7d",
   "th, td \x7b",
   "    border: 1px solid #D0DDEF;",
   "    padding: 8px 12px;",
   "    text-align: left;",
   "\x7d",
   "th \x7b background: #E8F0FE; font-weight: 600; color: #000337; \x7d",
   "tr:nth-child(even) \x7b background: #F5F8FF; \x7d",
   ".section-divider \x7b border-top: 2px solid #D0DDEF; margin: 30px 0; \x7d",
   ".warning-box \x7b",
   "    background: #FFF0D9;",
   "    border: 1px solid #FFA929;",
   "    border-radius: 6px;",
   "    padding: 10px 14px;",
   "    margin: 10px 0;",
   "    font-size: 0.9em;",
   "\x7d",
   ".success-box \x7b",
   "    background: #E0F2E9;",
   "    border: 1px solid #28a745;",
   "    border-radius: 6px;",
   "    padding: 10px 14px;",
   "    margin: 10px 0;",
   "    font-size: 0.9em;",
   "\x7d",
   ".info-box \x7b",
   "    background: #E8F0FE;",
   "    border: 1px solid #2C82FD;",
   "    border-radius: 6px;",
   "    padding: 10px 14px;",
   "    margin: 10px 0;",
   "    font-size: 0.9em;",
   "\x7d",
   ""]

/-- The `_CSS` stylesheet literal. -/
def repoCSS : String :=
  pyJoin "\n" cssParts

/-- The scan-summary counters consumed by `_section_overview`
(`total_files`, `dicom_parsed`, `parse_errors`).  The producing
`parse_scan_summary` is imported by `html_report.py` but absent from the
sources, so the renderer model takes the summary as an input; Python's
dict truthiness (`if scan_summary and ...`) is modelled by the `Option`. -/
structure ScanSummary where
  totalFiles : Int
  dicomParsed : Int
  parseErrors : Int
  deriving DecidableEq, Repr

/-- One metric box of `_section_overview`. -/
def overviewMetric (label value : String) : String :=
  "<div class=\"metric\"><div class=\"value\">" ++ esc value ++
    "</div><div class=\"label\">" ++ esc label ++ "</div></div>"

/-- The scan-summary paragraph of `_section_overview`: the counters joined
with bullets, each part present when its counter is nonzero (Python int
truthiness). -/
def scanSummaryLine (s : ScanSummary) : String :=
  "<p style=\"color:#888; font-size:0.9em;\">" ++
    pyJoin " &bull; "
      ([pyIntComma s.totalFiles ++ " files found in project"] ++
       (if s.dicomParsed ≠ 0 then
          [pyIntComma s.dicomParsed ++ " DICOM files parsed"] else []) ++
       (if s.parseErrors ≠ 0 then
          [pyIntComma s.parseErrors ++ " could not be parsed"] else []) ++
       (if s.totalFiles - s.dicomParsed - s.parseErrors ≠ 0 then
          [pyIntComma (s.totalFiles - s.dicomParsed - s.parseErrors) ++
            " non-DICOM skipped"] else [])) ++
  "</p>"

/-- `_section_overview` from `html_report.py`. -/
def sectionOverview (std : StandardCatalog) (priv : List (String × List String))
    (sop studies modalities : List String) (total : Int)
    (scan : Option ScanSummary) : String :=
  "<h2>Dataset Overview</h2>" ++ "<div class=\"metrics\">" ++
  ([("DICOM Files Parsed", pyIntComma total),
    ("Studies", pyNatRepr studies.length),
    ("Standard Tags", pyNatRepr std.length),
    ("Private Element Groups", pyNatRepr priv.length)].foldl
      (fun acc p => acc ++ overviewMetric p.1 p.2) "") ++
  "</div>" ++
  (match scan with
   | some s => if s.totalFiles > 0 then scanSummaryLine s else ""
   | none => "") ++
  "<h3>Modalities</h3>" ++
  (if modalities ≠ [] then
    pyJoin ", " (modalities.map fun m => "<code>" ++ esc m ++ "</code>")
   else "<div class=\"info-box\">No modality information found</div>") ++
  "<h3>SOP Classes</h3>" ++
  (if sop ≠ [] then
    pyJoin ", " (sop.map fun s => "<code>" ++ esc s ++ "</code>")
   else "<div class=\"info-box\">No SOP classes found</div>")

/-- One private-element row of `_section_tag_explorer`. -/
def privRowHtml (p : String × List String) : String :=
  "<div class=\"tag-row\"><div class=\"tag-header\"><span class=\"tag-label\">" ++
    esc p.1 ++ "</span>" ++
    (if p.2 ≠ [] then
      "<span class=\"status-review\">" ++ pyNatRepr p.2.length ++ " value(s)</span>"
     else "<span class=\"status-clean\">Empty</span>") ++ "</div>" ++
  (if p.2 ≠ [] then
    "<div class=\"values\">" ++
      p.2.foldl (fun acc v => acc ++ ("<div>" ++ valDisplay v ++ "</div>")) "" ++
    "</div>"
   else "") ++
  "</div>"

/-- One sequence row of `_section_tag_explorer`. -/
def seqRowHtml (p : String × List String) : String :=
  "<div class=\"tag-row\"><span class=\"tag-label\">" ++ esc p.1 ++ "</span>" ++
  (if p.2 ≠ [] then
    "<div class=\"values\">" ++
      p.2.foldl (fun acc v => acc ++ ("<div>" ++ valDisplay v ++ "</div>")) "" ++
    "</div>"
   else "") ++
  "</div>"

/-- The `all_seq` dict of `_section_tag_explorer`: standard then private
sequences inserted with their origin prefixes. -/
def seqMerge (stdSeq privSeq : List (String × List String)) :
    List (String × List String) :=
  privSeq.foldl (fun acc p => alSet acc ("[Priv] " ++ p.1) p.2)
    (stdSeq.foldl (fun acc p => alSet acc ("[Std] " ++ p.1) p.2) [])

/-- `_section_tag_explorer` from `html_report.py`. -/
def sectionTagExplorer (std : StandardCatalog)
    (priv stdSeq privSeq : List (String × List String)) : String :=
  "<h2>Tag Explorer</h2>" ++
  detailsBlock ("Standard Elements (" ++ pyNatRepr std.length ++ ")")
    (std.foldl
      (fun acc p => acc ++ tagRowHtml p.1 p.2.keyword p.2.vr p.2.values) "")
    false ++
  detailsBlock ("Private Elements (" ++ pyNatRepr priv.length ++ ")")
    (priv.foldl (fun acc p => acc ++ privRowHtml p) "") false ++
  detailsBlock ("Sequences (" ++ pyNatRepr (seqMerge stdSeq privSeq).length ++ ")")
    (if seqMerge stdSeq privSeq ≠ [] then
      (seqMerge stdSeq privSeq).foldl (fun acc p => acc ++ seqRowHtml p) ""
     else "<div class=\"info-box\">No sequence elements found</div>") false

/-- One creators-table row of `_section_private_creators`. -/
def creatorRowHtml (c : CreatorRow) : String :=
  "<tr><td><code>" ++ esc c.tag ++ "</code></td><td>" ++ esc c.creatorID ++
    "</td></tr>"

/-- `_section_private_creators` from `html_report.py`. -/
def sectionPrivateCreators (creators : List CreatorRow) : String :=
  "<h2>Private Creators</h2>" ++
  (if creators ≠ [] then
    "<div class=\"table-scroll\"><table><tr><th>Tag</th><th>Creator ID</th></tr>" ++
      creators.foldl (fun acc c => acc ++ creatorRowHtml c) "" ++
    "</table></div>"
   else "<div class=\"info-box\">No private creators found</div>")

/-- The report title: `f"PHI Report — {project_name}"` when a project name
is given. -/
def reportTitle (project : String) : String :=
  if project ≠ "" then "PHI Report — " ++ project else "PHI Report"

/-- The section divider emitted between sections. -/
def sectionDivider : String :=
  "<div class=\"section-divider\"></div>"

/-- The full `<body>` content built by `generate_html_report` (title
heading, header info, then the five sections separated by dividers), given
the parsed structures, the precomputed total file count and the study
summary's rendered text. -/
def reportBody (std : StandardCatalog)
    (priv dt stdSeq privSeq : List (String × List String))
    (sop studies : List String) (creators : List CreatorRow)
    (scan : Option ScanSummary) (project timestamp : String) (total : Int)
    (studyHtml : String) : String :=
  "<h1>" ++ esc (reportTitle project) ++ "</h1>" ++
  "<div class=\"header-info\">" ++
  ("<span><strong>Generated:</strong> " ++ esc timestamp ++ "</span>") ++
  (if project ≠ "" then
    "<span><strong>Project:</strong> " ++ esc project ++ "</span>" else "") ++
  ("<span><strong>DICOM files parsed:</strong> " ++ pyIntComma total ++ "</span>") ++
  "</div>" ++
  sectionOverview std priv sop studies
    (((alGet std "0008,0060").map TagEntry.values).getD []) total scan ++
  sectionDivider ++
  sectionPhiReview std dt ++
  sectionDivider ++
  sectionTagExplorer std priv stdSeq privSeq ++
  sectionDivider ++
  studyHtml ++
  sectionDivider ++
  sectionPrivateCreators creators

/-- `generate_html_report` from `html_report.py`, given the parsed
structures (file loading and parsing are modelled by the `parse_*`
functions above), the scan summary, the project name and the generation
timestamp.  `total_files` is computed first and `ValueError` from a
malformed count propagates out of the renderer. -/
def generate_html_report_model (std : StandardCatalog)
    (priv dt stdSeq privSeq : List (String × List String))
    (sop studies : List String) (counts : List CountsRow)
    (creators : List CreatorRow) (large : List LpeRow)
    (scan : Option ScanSummary) (project timestamp : String) :
    Except PyErr String :=
  match totalFiles counts with
  | .error e => .error e
  | .ok total =>
    match sectionStudySummary counts large with
    | .error e => .error e
    | .ok studyHtml =>
      .ok ("<!DOCTYPE html>\n<html lang=\"en\">\n<head>\n<meta charset=\"UTF-8\">\n<meta name=\"viewport\" content=\"width=device-width, initial-scale=1.0\">\n<title>" ++
        esc (reportTitle project) ++ "</title>\n<style>\n" ++ repoCSS ++
        "\n</style>\n</head>\n<body>\n" ++
        reportBody std priv dt stdSeq privSeq sop studies creators scan
          project timestamp total studyHtml ++
        "\n</body>\n</html>")

/-!
## A scanner for occurrences of `<script>`

`scriptStep` is the Knuth-Morris-Pratt automaton of the pattern `<script>`:
state `k < 8` means "the last `k` characters read are the first `k` pattern
characters"; state `8` (absorbing) means the pattern has occurred.  Because
the pattern contains `<` only at position 0, the failure transition from any
state is `1` on `<` and `0` otherwise.  A string on which the automaton,
started in state 0, ends in state 0 contains no occurrence of `<script>`
and also ends no partial match, so such strings can be concatenated freely.
-/

/-- Character `i` of the pattern `<script>`. -/
def patChar : Nat → Char
  | 0 => '<' | 1 => 's' | 2 => 'c' | 3 => 'r'
  | 4 => 'i' | 5 => 'p' | 6 => 't' | 7 => '>'
  | _ => ' '

/-- One automaton transition. -/
def scriptStep (st : Nat) (c : Char) : Nat :=
  if 8 ≤ st then 8
  else if c = patChar st then st + 1
  else if c = '<' then 1
  else 0

/-- Run the automaton from state `st` over `l`. -/
def runScan (st : Nat) (l : List Char) : Nat :=
  l.foldl scriptStep st

/-- A string is `goodS` when scanning it from state 0 ends in state 0: it
contains no `<script>` and no dangling partial match. -/
def goodS (s : String) : Prop :=
  runScan 0 s.data = 0

theorem runScan_append (st : Nat) (a b : List Char) :
    runScan st (a ++ b) = runScan (runScan st a) b :=
  List.foldl_append ..

theorem runScan_absorb (l : List Char) : runScan 8 l = 8 := by
  induction l with
  | nil => rfl
  | cons c t ih =>
    show runScan (scriptStep 8 c) t = 8
    simpa [scriptStep] using ih

theorem runScan_cons (st : Nat) (c : Char) (l : List Char) :
    runScan st (c :: l) = runScan (scriptStep st c) l :=
  rfl

theorem runScan_pat (st : Nat) : runScan st "<script>".data = 8 := by
  rcases Nat.lt_or_ge st 8 with h | h
  · interval_cases st <;> decide
  · have h8 : "<script>".data = '<' :: "script>".data := rfl
    have hs : scriptStep st '<' = 8 := by
      unfold scriptStep
      rw [if_pos h]
    rw [h8, runScan_cons, hs]
    exact runScan_absorb _

theorem runScan_of_script (l : List Char) (h : "<script>".data <:+: l) :
    runScan 0 l = 0 → False := by
  obtain ⟨s, t, rfl⟩ := h
  rw [runScan_append, runScan_append, runScan_pat, runScan_absorb]
  omega

/-- A `goodS` string contains no occurrence of `<script>`. -/
theorem goodS_no_script {s : String} (h : goodS s) :
    ¬ ("<script>".data <:+: s.data) :=
  fun hi => runScan_of_script s.data hi h

theorem goodS_append {a b : String} (ha : goodS a) (hb : goodS b) :
    goodS (a ++ b) := by
  show runScan 0 (a ++ b).data = 0
  rw [String.data_append, runScan_append]
  rw [show runScan 0 a.data = 0 from ha]
  exact hb

/-- From state 0, characters other than `<` keep the automaton in state 0. -/
theorem runScan_of_no_lt (l : List Char) (h : ∀ c ∈ l, c ≠ '<') :
    runScan 0 l = 0 := by
  induction l with
  | nil => rfl
  | cons c t ih =>
    have hc : c ≠ '<' := h c (List.mem_cons_self c t)
    show runScan (scriptStep 0 c) t = 0
    have hs : scriptStep 0 c = 0 := by
      simp [scriptStep, patChar, hc]
    rw [hs]
    exact ih fun d hd => h d (List.mem_cons_of_mem c hd)

theorem escChar_no_lt (c : Char) : ∀ d ∈ escChar c, d ≠ '<' := by
  unfold escChar
  split_ifs with h1 h2 h3 h4 h5
  · decide
  · decide
  · decide
  · decide
  · decide
  · intro d hd
    rw [List.mem_singleton] at hd
    subst hd
    exact h2

theorem esc_no_lt (s : String) : ∀ d ∈ (esc s).data, d ≠ '<' := by
  show ∀ d ∈ s.data.flatMap escChar, d ≠ '<'
  intro d hd
  rw [List.mem_flatMap] at hd
  obtain ⟨c, _, hdc⟩ := hd
  exact escChar_no_lt c d hdc

theorem goodS_esc (s : String) : goodS (esc s) :=
  runScan_of_no_lt _ (esc_no_lt s)

theorem pyDigitChar_ne_lt (n : Nat) : pyDigitChar n ≠ '<' := by
  unfold pyDigitChar
  split <;> decide

theorem natCharsAux_no_lt (fuel n : Nat) : ∀ d ∈ natCharsAux fuel n, d ≠ '<' := by
  induction fuel generalizing n with
  | zero => intro d hd; simp [natCharsAux] at hd
  | succ fuel ih =>
    intro d hd
    rw [natCharsAux] at hd
    split at hd
    · rw [List.mem_singleton] at hd
      subst hd
      exact pyDigitChar_ne_lt n
    · rw [List.mem_append] at hd
      rcases hd with hd | hd
      · exact ih (n / 10) d hd
      · rw [List.mem_singleton] at hd
        subst hd
        exact pyDigitChar_ne_lt (n % 10)

theorem goodS_pyNatRepr (n : Nat) : goodS (pyNatRepr n) :=
  runScan_of_no_lt _ fun d hd => natCharsAux_no_lt (n + 1) n d hd

theorem goodS_pyIntRepr (i : Int) : goodS (pyIntRepr i) := by
  unfold pyIntRepr
  split
  · exact goodS_append (runScan_of_no_lt _ (by decide)) (goodS_pyNatRepr _)
  · exact goodS_pyNatRepr _

theorem commaRev_mem (l : List Char) : ∀ d ∈ commaRev l, d ∈ l ∨ d = ',' := by
  induction l using commaRev.induct with
  | case1 d1 d2 d3 d4 rest ih =>
    intro d hd
    rw [commaRev] at hd
    simp only [List.mem_cons] at hd ⊢
    rcases hd with h | h | h | h | h
    · exact Or.inl (Or.inl h)
    · exact Or.inl (Or.inr (Or.inl h))
    · exact Or.inl (Or.inr (Or.inr (Or.inl h)))
    · exact Or.inr h
    · rcases ih d h with h' | h'
      · simp only [List.mem_cons] at h'
        exact Or.inl (Or.inr (Or.inr (Or.inr h')))
      · exact Or.inr h'
  | case2 l h1 =>
    intro d hd
    rw [commaRev.eq_def] at hd
    split at hd
    · rename_i d1 d2 d3 d4 rest
      exact absurd rfl (h1 d1 d2 d3 d4 rest)
    · exact Or.inl hd

theorem goodS_pyNatComma (n : Nat) : goodS (pyNatComma n) := by
  apply runScan_of_no_lt
  intro d hd
  have : d ∈ commaRev (natChars n).reverse ∨ False := by
    left
    exact List.mem_reverse.mp hd
  rcases this with h | h
  · rcases commaRev_mem _ d h with h' | h'
    · exact natCharsAux_no_lt (n + 1) n d (List.mem_reverse.mp h')
    · subst h'; decide
  · exact h.elim

theorem goodS_pyIntComma (i : Int) : goodS (pyIntComma i) := by
  unfold pyIntComma
  split
  · exact goodS_append (runScan_of_no_lt _ (by decide)) (goodS_pyNatComma _)
  · exact goodS_pyNatComma _

theorem goodS_foldl {α : Type} (f : α → String) (l : List α) (acc : String)
    (hacc : goodS acc) (h : ∀ x ∈ l, goodS (f x)) :
    goodS (l.foldl (fun a x => a ++ f x) acc) := by
  induction l generalizing acc with
  | nil => exact hacc
  | cons y ys ih =>
    exact ih (acc ++ f y)
      (goodS_append hacc (h y (List.mem_cons_self y ys)))
      fun x hx => h x (List.mem_cons_of_mem y hx)

theorem goodS_joinFold (sep : String) (l : List String) (acc : String)
    (hsep : goodS sep) (hacc : goodS acc) (h : ∀ x ∈ l, goodS x) :
    goodS (l.foldl (fun a y => a ++ sep ++ y) acc) := by
  induction l generalizing acc with
  | nil => exact hacc
  | cons y ys ih =>
    exact ih (acc ++ sep ++ y)
      (goodS_append (goodS_append hacc hsep) (h y (List.mem_cons_self y ys)))
      fun x hx => h x (List.mem_cons_of_mem y hx)

theorem goodS_pyJoin (sep : String) (l : List String)
    (hsep : goodS sep) (h : ∀ x ∈ l, goodS x) : goodS (pyJoin sep l) := by
  cases l with
  | nil => rfl
  | cons y ys =>
    exact goodS_joinFold sep ys y hsep (h y (List.mem_cons_self y ys))
      fun x hx => h x (List.mem_cons_of_mem y hx)

theorem goodS_valDisplay (v : String) : goodS (valDisplay v) := by
  unfold valDisplay
  split
  · exact goodS_esc v
  · unfold goodS
    decide

theorem goodS_tagRowHtml (t k vr : String) (vals : List String) :
    goodS (tagRowHtml t k vr vals) := by
  have hval : goodS
      (vals.foldl (fun acc v => acc ++ ("<div>" ++ valDisplay v ++ "</div>")) "") :=
    goodS_foldl _ vals "" rfl fun v _ =>
      goodS_append (goodS_append (by unfold goodS; decide) (goodS_valDisplay v))
        (by unfold goodS; decide)
  simp only [tagRowHtml]
  split_ifs with h <;>
    repeat' apply goodS_append
  all_goals
    first
    | exact goodS_esc _
    | exact goodS_pyNatRepr _
    | exact hval
    | rfl
    | (unfold goodS; decide)

theorem goodS_detailsBlock (s c : String) (b : Bool) (hc : goodS c) :
    goodS (detailsBlock s c b) := by
  simp only [detailsBlock]
  split_ifs with h <;>
    repeat' apply goodS_append
  all_goals
    first
    | exact goodS_esc _
    | exact hc
    | rfl
    | (unfold goodS; decide)

theorem goodS_phiGroupRow (std : StandardCatalog) (p : String × String) :
    goodS (phiGroupRow std p) :=
  goodS_tagRowHtml ..

theorem goodS_phiGroupBlock (std : StandardCatalog)
    (g : String × List (String × String)) : goodS (phiGroupBlock std g) :=
  goodS_detailsBlock _ _ _
    (goodS_foldl _ g.2 "" rfl fun p _ => goodS_phiGroupRow std p)

theorem goodS_dtRowHtml (p : String × List String) : goodS (dtRowHtml p) := by
  have hjoin : goodS (pyJoin ", " (p.2.map valDisplay)) :=
    goodS_pyJoin ", " _ (by unfold goodS; decide) fun x hx => by
      obtain ⟨v, _, rfl⟩ := List.mem_map.mp hx
      exact goodS_valDisplay v
  simp only [dtRowHtml]
  split_ifs with h <;>
    repeat' apply goodS_append
  all_goals
    first
    | exact goodS_esc _
    | exact hjoin
    | rfl
    | (unfold goodS; decide)

theorem goodS_dtContent (dt : List (String × List String)) :
    goodS (dtContent dt) := by
  unfold dtContent
  split
  · exact goodS_foldl _ dt "" rfl fun p _ => goodS_dtRowHtml p
  · unfold goodS; decide

theorem goodS_sectionPhiReview (std : StandardCatalog)
    (dt : List (String × List String)) : goodS (sectionPhiReview std dt) := by
  unfold sectionPhiReview
  apply goodS_append
  · exact goodS_foldl _ PHI_GROUPS _ (by unfold goodS; decide)
      fun g _ => goodS_phiGroupBlock std g
  · exact goodS_detailsBlock _ _ _ (goodS_dtContent dt)

theorem mem_ite_singleton {c : Prop} [Decidable c] {x s : String}
    (h : x ∈ (if c then [s] else [])) : x = s := by
  split at h
  · simpa using h
  · cases h

theorem goodS_overviewMetric (label value : String) :
    goodS (overviewMetric label value) := by
  unfold overviewMetric
  repeat' apply goodS_append
  all_goals
    first
    | exact goodS_esc _
    | (unfold goodS; decide)

theorem goodS_scanSummaryLine (s : ScanSummary) : goodS (scanSummaryLine s) := by
  unfold scanSummaryLine
  apply goodS_append
  apply goodS_append
  · unfold goodS; decide
  · apply goodS_pyJoin
    · unfold goodS; decide
    · intro x hx
      rcases List.mem_append.mp hx with h | h
      · rcases List.mem_append.mp h with h' | h'
        · rcases List.mem_append.mp h' with h2 | h2
          · rw [List.mem_singleton] at h2
            subst h2
            exact goodS_append (goodS_pyIntComma _) (by unfold goodS; decide)
          · rw [mem_ite_singleton h2]
            exact goodS_append (goodS_pyIntComma _) (by unfold goodS; decide)
        · rw [mem_ite_singleton h']
          exact goodS_append (goodS_pyIntComma _) (by unfold goodS; decide)
      · rw [mem_ite_singleton h]
        exact goodS_append (goodS_pyIntComma _) (by unfold goodS; decide)
  · unfold goodS; decide

theorem goodS_sectionOverview (std : StandardCatalog)
    (priv : List (String × List String)) (sop studies modalities : List String)
    (total : Int) (scan : Option ScanSummary) :
    goodS (sectionOverview std priv sop studies modalities total scan) := by
  unfold sectionOverview
  refine goodS_append (goodS_append (goodS_append (goodS_append (goodS_append
    (goodS_append (goodS_append (goodS_append ?_ ?_) ?_) ?_) ?_) ?_) ?_) ?_) ?_
  · unfold goodS; decide
  · unfold goodS; decide
  · exact goodS_foldl _ _ "" rfl fun p _ => goodS_overviewMetric p.1 p.2
  · unfold goodS; decide
  · rcases scan with _ | s
    · rfl
    · show goodS (if s.totalFiles > 0 then scanSummaryLine s else "")
      split
      · exact goodS_scanSummaryLine s
      · rfl
  · unfold goodS; decide
  · split
    · apply goodS_pyJoin
      · unfold goodS; decide
      · intro x hx
        obtain ⟨m, _, rfl⟩ := List.mem_map.mp hx
        exact goodS_append (goodS_append (by unfold goodS; decide) (goodS_esc m))
          (by unfold goodS; decide)
    · unfold goodS; decide
  · unfold goodS; decide
  · split
    · apply goodS_pyJoin
      · unfold goodS; decide
      · intro x hx
        obtain ⟨m, _, rfl⟩ := List.mem_map.mp hx
        exact goodS_append (goodS_append (by unfold goodS; decide) (goodS_esc m))
          (by unfold goodS; decide)
    · unfold goodS; decide

theorem goodS_valuesFold (vs : List String) :
    goodS (vs.foldl (fun acc v => acc ++ ("<div>" ++ valDisplay v ++ "</div>")) "") :=
  goodS_foldl _ vs "" rfl fun v _ =>
    goodS_append (goodS_append (by unfold goodS; decide) (goodS_valDisplay v))
      (by unfold goodS; decide)

theorem goodS_privRowHtml (p : String × List String) : goodS (privRowHtml p) := by
  unfold privRowHtml
  split_ifs with h <;>
    repeat' apply goodS_append
  all_goals
    first
    | exact goodS_esc _
    | exact goodS_pyNatRepr _
    | exact goodS_valuesFold _
    | rfl
    | (unfold goodS; decide)

theorem goodS_seqRowHtml (p : String × List String) : goodS (seqRowHtml p) := by
  unfold seqRowHtml
  split_ifs with h <;>
    repeat' apply goodS_append
  all_goals
    first
    | exact goodS_esc _
    | exact goodS_valuesFold _
    | rfl
    | (unfold goodS; decide)

theorem goodS_sectionTagExplorer (std : StandardCatalog)
    (priv stdSeq privSeq : List (String × List String)) :
    goodS (sectionTagExplorer std priv stdSeq privSeq) := by
  unfold sectionTagExplorer
  apply goodS_append
  apply goodS_append
  apply goodS_append
  · unfold goodS; decide
  · exact goodS_detailsBlock _ _ _ (goodS_foldl _ std "" rfl fun p _ =>
      goodS_tagRowHtml p.1 p.2.keyword p.2.vr p.2.values)
  · exact goodS_detailsBlock _ _ _ (goodS_foldl _ priv "" rfl fun p _ =>
      goodS_privRowHtml p)
  · apply goodS_detailsBlock
    split
    · exact goodS_foldl _ (seqMerge stdSeq privSeq) "" rfl fun p _ =>
        goodS_seqRowHtml p
    · unfold goodS; decide

theorem goodS_creatorRowHtml (c : CreatorRow) : goodS (creatorRowHtml c) := by
  unfold creatorRowHtml
  repeat' apply goodS_append
  all_goals
    first
    | exact goodS_esc _
    | (unfold goodS; decide)

theorem goodS_sectionPrivateCreators (creators : List CreatorRow) :
    goodS (sectionPrivateCreators creators) := by
  unfold sectionPrivateCreators
  apply goodS_append
  · unfold goodS; decide
  · split
    · apply goodS_append
      apply goodS_append
      · unfold goodS; decide
      · exact goodS_foldl _ creators "" rfl fun c _ => goodS_creatorRowHtml c
      · unfold goodS; decide
    · unfold goodS; decide

theorem goodS_countsTableRows (counts : List CountsRow) :
    goodS (countsTableRows counts) := by
  unfold countsTableRows
  apply goodS_foldl
  · rfl
  · intro r _
    repeat' apply goodS_append
    all_goals
      first
      | exact goodS_esc _
      | (unfold goodS; decide)

theorem goodS_lpeRowHtml (r : LpeRow) : goodS (lpeRowHtml r) := by
  unfold lpeRowHtml
  repeat' apply goodS_append
  all_goals
    first
    | exact goodS_esc _
    | (unfold goodS; decide)

theorem goodS_lpeTable (large : List LpeRow) : goodS (lpeTable large) := by
  unfold lpeTable
  apply goodS_append
  apply goodS_append
  · unfold goodS; decide
  · exact goodS_foldl _ _ "" rfl fun r _ => goodS_lpeRowHtml r
  · unfold goodS; decide

theorem goodS_lpeNote (n : Nat) : goodS (lpeNote n) := by
  unfold lpeNote
  apply goodS_append
  apply goodS_append
  · unfold goodS; decide
  · exact goodS_pyNatComma n
  · unfold goodS; decide

theorem goodS_lpePart (large : List LpeRow) : goodS (lpePart large) := by
  unfold lpePart
  split
  · refine goodS_append (goodS_append (goodS_append (goodS_append (goodS_append
      (goodS_append (goodS_append (goodS_append ?_ ?_) ?_) ?_) ?_) ?_) ?_) ?_) ?_
    · unfold goodS; decide
    · unfold goodS; decide
    · exact goodS_pyNatComma _
    · unfold goodS; decide
    · unfold goodS; decide
    · exact goodS_pyIntComma _
    · unfold goodS; decide
    · exact goodS_lpeTable _
    · split
      · exact goodS_lpeNote _
      · rfl
  · unfold goodS; decide

theorem goodS_countsPartE (counts : List CountsRow) (cp : String)
    (h : countsPartE counts = Except.ok cp) : goodS cp := by
  unfold countsPartE at h
  split at h
  · rcases hsf : sumFiles counts with e | total
    · rw [hsf] at h
      exact Except.noConfusion h
    · rw [hsf] at h
      have hcp : _ = cp := Except.ok.injEq .. ▸ h
      rw [← hcp]
      refine goodS_append (goodS_append (goodS_append (goodS_append
        (goodS_append ?_ ?_) ?_) ?_) ?_) ?_
      · unfold goodS; decide
      · exact goodS_countsTableRows _
      · unfold goodS; decide
      · unfold goodS; decide
      · exact goodS_pyIntComma _
      · unfold goodS; decide
  · have hcp : _ = cp := Except.ok.injEq .. ▸ h
    rw [← hcp]
    unfold goodS; decide

theorem goodS_studySummary (counts : List CountsRow) (large : List LpeRow)
    (s : String) (h : sectionStudySummary counts large = Except.ok s) :
    goodS s := by
  unfold sectionStudySummary at h
  rcases hcp : countsPartE counts with e | cp
  · rw [hcp] at h
    exact Except.noConfusion h
  · rw [hcp] at h
    have hs : _ = s := Except.ok.injEq .. ▸ h
    rw [← hs]
    refine goodS_append (goodS_append (goodS_append ?_ ?_) ?_) ?_
    · unfold goodS; decide
    · exact goodS_countsPartE counts cp hcp
    · unfold goodS; decide
    · exact goodS_lpePart _

theorem goodS_repoCSS : goodS repoCSS := by
  apply goodS_pyJoin
  · unfold goodS; decide
  · have h : ∀ x ∈ cssParts, runScan 0 x.data = 0 := by decide
    exact h

theorem goodS_reportBody (std : StandardCatalog)
    (priv dt stdSeq privSeq : List (String × List String))
    (sop studies : List String) (creators : List CreatorRow)
    (scan : Option ScanSummary) (project timestamp : String) (total : Int)
    (studyHtml : String) (hstudy : goodS studyHtml) :
    goodS (reportBody std priv dt stdSeq privSeq sop studies creators scan
      project timestamp total studyHtml) := by
  unfold reportBody
  refine goodS_append (goodS_append (goodS_append (goodS_append (goodS_append
    (goodS_append (goodS_append (goodS_append (goodS_append (goodS_append
    (goodS_append (goodS_append (goodS_append (goodS_append (goodS_append
    (goodS_append ?_ ?_) ?_) ?_) ?_) ?_) ?_) ?_) ?_) ?_) ?_) ?_) ?_) ?_) ?_)
    ?_) ?_
  · unfold goodS; decide
  · exact goodS_esc _
  · unfold goodS; decide
  · unfold goodS; decide
  · exact goodS_append (goodS_append (by unfold goodS; decide) (goodS_esc _))
      (by unfold goodS; decide)
  · split
    · exact goodS_append (goodS_append (by unfold goodS; decide) (goodS_esc _))
        (by unfold goodS; decide)
    · rfl
  · exact goodS_append (goodS_append (by unfold goodS; decide)
      (goodS_pyIntComma _)) (by unfold goodS; decide)
  · unfold goodS; decide
  · exact goodS_sectionOverview ..
  · unfold goodS sectionDivider; decide
  · exact goodS_sectionPhiReview ..
  · unfold goodS sectionDivider; decide
  · exact goodS_sectionTagExplorer ..
  · unfold goodS sectionDivider; decide
  · exact hstudy
  · unfold goodS sectionDivider; decide
  · exact goodS_sectionPrivateCreators ..

/-- The whole rendered document scans clean: it contains no occurrence of
`<script>`. -/
theorem goodS_document (std : StandardCatalog)
    (priv dt stdSeq privSeq : List (String × List String))
    (sop studies : List String) (counts : List CountsRow)
    (creators : List CreatorRow) (large : List LpeRow)
    (scan : Option ScanSummary) (project timestamp : String) (out : String)
    (h : generate_html_report_model std priv dt stdSeq privSeq sop studies
      counts creators large scan project timestamp = Except.ok out) :
    goodS out := by
  unfold generate_html_report_model at h
  rcases htot : totalFiles counts with e | total
  · rw [htot] at h
    exact Except.noConfusion h
  · rw [htot] at h
    rcases hsec : sectionStudySummary counts large with e | studyHtml
    · rw [hsec] at h
      exact Except.noConfusion h
    · rw [hsec] at h
      have hout : _ = out := Except.ok.injEq .. ▸ h
      rw [← hout]
      refine goodS_append (goodS_append (goodS_append (goodS_append
        (goodS_append (goodS_append ?_ ?_) ?_) ?_) ?_) ?_) ?_
      · unfold goodS; decide
      · exact goodS_esc _
      · unfold goodS; decide
      · exact goodS_repoCSS
      · unfold goodS; decide
      · exact goodS_reportBody std priv dt stdSeq privSeq sop studies
          creators scan project timestamp total studyHtml
          (goodS_studySummary counts large studyHtml hsec)
      · unfold goodS; decide


/-!
## Locating escaped data inside the rendered section
-/

theorem inf_trans {α : Type} {a b c : List α} (h1 : a <:+: b) (h2 : b <:+: c) :
    a <:+: c :=
  List.IsInfix.trans h1 h2

theorem inf_refl {α : Type} (a : List α) : a <:+: a :=
  ⟨[], [], by simp⟩

/-- A factor of `b` is a factor of `a ++ b`. -/
theorem inf_app_right (a : String) {x b : String} (h : x.data <:+: b.data) :
    x.data <:+: (a ++ b).data := by
  rw [String.data_append]
  exact inf_trans h ⟨a.data, [], by simp⟩

/-- A factor of `a` is a factor of `a ++ b`. -/
theorem inf_app_left (b : String) {x a : String} (h : x.data <:+: a.data) :
    x.data <:+: (a ++ b).data := by
  rw [String.data_append]
  exact inf_trans h ⟨[], b.data, by simp⟩

theorem foldl_acc_pref {α : Type} (f : α → String) (l : List α) (acc : String) :
    acc.data <+: (l.foldl (fun a x => a ++ f x) acc).data := by
  induction l generalizing acc with
  | nil => exact List.prefix_refl _
  | cons y ys ih =>
    refine List.IsPrefix.trans ?_ (ih (acc ++ f y))
    rw [String.data_append]
    exact ⟨(f y).data, rfl⟩

/-- Each piece contributed by a member of the list is a factor of the
accumulated fold. -/
theorem foldl_factor {α : Type} (f : α → String) (l : List α) (acc : String)
    {x : α} (hx : x ∈ l) :
    (f x).data <:+: (l.foldl (fun a y => a ++ f y) acc).data := by
  induction l generalizing acc with
  | nil => cases hx
  | cons y ys ih =>
    rcases List.mem_cons.mp hx with h | h
    · subst h
      have h1 : (f x).data <:+ (acc ++ f x).data := by
        rw [String.data_append]
        exact ⟨acc.data, rfl⟩
      have h2 : (acc ++ f x).data <+: ((ys.foldl (fun a y => a ++ f y) (acc ++ f x))).data :=
        foldl_acc_pref f ys (acc ++ f x)
      obtain ⟨t, ht⟩ := h1
      obtain ⟨u, hu⟩ := h2
      refine ⟨t, u, ?_⟩
      show t ++ (f x).data ++ u =
        (ys.foldl (fun a y => a ++ f y) (acc ++ f x)).data
      rw [← hu, ← ht]
    · exact ih (acc ++ f y) h

theorem joinFold_acc_pref (sep : String) (l : List String) (acc : String) :
    acc.data <+: (l.foldl (fun a y => a ++ sep ++ y) acc).data := by
  induction l generalizing acc with
  | nil => exact List.prefix_refl _
  | cons y ys ih =>
    refine List.IsPrefix.trans ?_ (ih (acc ++ sep ++ y))
    rw [String.data_append, String.data_append]
    exact ⟨sep.data ++ y.data, by simp⟩

theorem joinFold_factor (sep : String) (l : List String) (acc : String)
    {x : String} (hx : x ∈ l) :
    x.data <:+: (l.foldl (fun a y => a ++ sep ++ y) acc).data := by
  induction l generalizing acc with
  | nil => cases hx
  | cons y ys ih =>
    rcases List.mem_cons.mp hx with h | h
    · subst h
      have h1 : x.data <:+ (acc ++ sep ++ x).data := by
        rw [String.data_append, String.data_append]
        exact ⟨acc.data ++ sep.data, by simp⟩
      have h2 := joinFold_acc_pref sep ys (acc ++ sep ++ x)
      obtain ⟨t, ht⟩ := h1
      obtain ⟨u, hu⟩ := h2
      refine ⟨t, u, ?_⟩
      show t ++ x.data ++ u =
        (ys.foldl (fun a y => a ++ sep ++ y) (acc ++ sep ++ x)).data
      rw [← hu, ← ht]
    · exact ih (acc ++ sep ++ y) h

/-- A member of the joined list is a factor of the `", ".join(...)`. -/
theorem pyJoin_factor (sep : String) (l : List String) {x : String}
    (hx : x ∈ l) : x.data <:+: (pyJoin sep l).data := by
  cases l with
  | nil => cases hx
  | cons y ys =>
    rcases List.mem_cons.mp hx with h | h
    · subst h
      obtain ⟨u, hu⟩ := joinFold_acc_pref sep ys x
      refine ⟨[], u, ?_⟩
      show [] ++ x.data ++ u = (ys.foldl (fun a y => a ++ sep ++ y) x).data
      rw [← hu]
      simp
    · exact joinFold_factor sep ys y h

/-- Escaping maps an occurrence of `<script>` to an occurrence of
`&lt;script&gt;`. -/
theorem esc_script {v : String} (h : "<script>".data <:+: v.data) :
    "&lt;script&gt;".data <:+: (esc v).data := by
  obtain ⟨s, t, hst⟩ := h
  have hm : "<script>".data.flatMap escChar = "&lt;script&gt;".data := by decide
  refine ⟨s.flatMap escChar, t.flatMap escChar, ?_⟩
  show s.flatMap escChar ++ "&lt;script&gt;".data ++ t.flatMap escChar =
    v.data.flatMap escChar
  rw [← hst, List.flatMap_append, List.flatMap_append, hm]

theorem mem_dropWhile_of_mem {p : Char → Bool} {c : Char} :
    ∀ {l : List Char}, c ∈ l → p c = false → c ∈ l.dropWhile p := by
  intro l
  induction l with
  | nil => intro h; cases h
  | cons a t ih =>
    intro hc hpc
    by_cases ha : p a
    · rw [List.dropWhile_cons_of_pos ha]
      rcases List.mem_cons.mp hc with h | h
      · subst h; rw [hpc] at ha; cases ha
      · exact ih h hpc
    · rw [List.dropWhile_cons_of_neg ha]
      exact hc

theorem mem_stripL {c : Char} {l : List Char} (hc : c ∈ l)
    (hp : pyIsSpace c = false) : c ∈ stripL l := by
  unfold stripL
  apply List.mem_reverse.mpr
  apply mem_dropWhile_of_mem _ hp
  apply List.mem_reverse.mpr
  exact mem_dropWhile_of_mem hc hp

/-- A string containing `<script>` does not strip to the empty string, so
the renderer does not replace it with the `&lt;empty&gt;` placeholder. -/
theorem strip_ne_of_script {v : String} (h : "<script>".data <:+: v.data) :
    pyStrip v ≠ "" := by
  obtain ⟨s, t, hst⟩ := h
  have hlt : '<' ∈ v.data := by
    have hin : '<' ∈ "<script>".data := by decide
    rw [← hst]
    exact List.mem_append.mpr (Or.inl (List.mem_append.mpr (Or.inr hin)))
  intro he
  have hmem : '<' ∈ stripL v.data := mem_stripL hlt (by decide)
  have hdat : (pyStrip v).data = stripL v.data := rfl
  rw [he] at hdat
  rw [← hdat] at hmem
  cases hmem

/-- A value containing `<script>` appears escaped inside the rendered PHI
review section. -/
theorem escaped_in_phi (std : StandardCatalog)
    (dt : List (String × List String)) (k v : String) (vs : List String)
    (hk : (k, vs) ∈ dt) (hv : v ∈ vs) (hs : "<script>".data <:+: v.data) :
    "&lt;script&gt;".data <:+: (sectionPhiReview std dt).data := by
  have h1 : "&lt;script&gt;".data <:+: (esc v).data := esc_script hs
  have hvd : valDisplay v = esc v := by
    unfold valDisplay
    rw [if_pos (strip_ne_of_script hs)]
  have h2 : (valDisplay v).data <:+: (pyJoin ", " (vs.map valDisplay)).data :=
    pyJoin_factor _ _ (List.mem_map_of_mem valDisplay hv)
  rw [hvd] at h2
  have hne : vs ≠ [] := List.ne_nil_of_mem hv
  have h3 : (pyJoin ", " (vs.map valDisplay)).data <:+: (dtRowHtml (k, vs)).data := by
    show (pyJoin ", " (vs.map valDisplay)).data <:+:
      ("<div class=\"tag-row\"><span class=\"tag-label\">" ++ esc (k, vs).1 ++
        "</span>" ++
        (if (k, vs).2 ≠ [] then
          "<div class=\"values\"><div>" ++
            pyJoin ", " ((k, vs).2.map valDisplay) ++ "</div></div>"
         else "<div class=\"values\"><div>&lt;empty&gt;</div></div>") ++
        "</div>").data
    rw [if_pos hne]
    apply inf_app_left
    apply inf_app_right
    apply inf_app_left
    apply inf_app_right
    exact inf_refl _
  have h4 : (dtRowHtml (k, vs)).data <:+: (dtContent dt).data := by
    unfold dtContent
    rw [if_pos (List.ne_nil_of_mem hk)]
    exact foldl_factor dtRowHtml dt "" hk
  have h5 : (dtContent dt).data <:+:
      (detailsBlock "Dates & Times" (dtContent dt) false).data := by
    unfold detailsBlock
    apply inf_app_left
    apply inf_app_right
    exact inf_refl _
  have h6 : (detailsBlock "Dates & Times" (dtContent dt) false).data <:+:
      (sectionPhiReview std dt).data := by
    unfold sectionPhiReview
    exact inf_app_right _ (inf_refl _)
  exact inf_trans h1 (inf_trans h2 (inf_trans h3 (inf_trans h4 (inf_trans h5 h6))))

/-- The PHI review section is a factor of the full report body. -/
theorem phi_inf_reportBody (std : StandardCatalog)
    (priv dt stdSeq privSeq : List (String × List String))
    (sop studies : List String) (creators : List CreatorRow)
    (scan : Option ScanSummary) (project timestamp : String) (total : Int)
    (studyHtml : String) :
    (sectionPhiReview std dt).data <:+:
      (reportBody std priv dt stdSeq privSeq sop studies creators scan
        project timestamp total studyHtml).data := by
  unfold reportBody
  apply inf_app_left
  apply inf_app_left
  apply inf_app_left
  apply inf_app_left
  apply inf_app_left
  apply inf_app_left
  exact inf_app_right _ (inf_refl _)

/-- C1: every user/report value embedded by the static renderer passes
through `_esc` (`html.escape`) before embedding, in every section of the
document (overview, PHI review, tag explorer, study summary, private
creators, title and header).  Whenever `generate_html_report` returns a
document, that document contains no occurrence of `<script>` anywhere —
even when one of the supplied date/time values contains `<script>` — and
the escaped form `&lt;script&gt;` of such a value does appear in it. -/
theorem c1_document_escapes (std : StandardCatalog)
    (priv dt stdSeq privSeq : List (String × List String))
    (sop studies : List String) (counts : List CountsRow)
    (creators : List CreatorRow) (large : List LpeRow)
    (scan : Option ScanSummary) (project timestamp : String)
    (k v : String) (vs : List String)
    (hk : (k, vs) ∈ dt) (hv : v ∈ vs) (hs : "<script>".data <:+: v.data) :
    ∀ out, generate_html_report_model std priv dt stdSeq privSeq sop studies
        counts creators large scan project timestamp = Except.ok out →
      "&lt;script&gt;".data <:+: out.data ∧
        ¬ ("<script>".data <:+: out.data) := by
  intro out hout
  refine ⟨?_, goodS_no_script (goodS_document std priv dt stdSeq privSeq sop
    studies counts creators large scan project timestamp out hout)⟩
  unfold generate_html_report_model at hout
  rcases htot : totalFiles counts with e | total
  · rw [htot] at hout
    exact Except.noConfusion hout
  · rw [htot] at hout
    rcases hsec : sectionStudySummary counts large with e | studyHtml
    · rw [hsec] at hout
      exact Except.noConfusion hout
    · rw [hsec] at hout
      have h : _ = out := Except.ok.injEq .. ▸ hout
      rw [← h]
      have hphi := escaped_in_phi std dt k v vs hk hv hs
      have hrb : (sectionPhiReview std dt).data <:+:
          (reportBody std priv dt stdSeq privSeq sop studies creators scan
            project timestamp total studyHtml).data :=
        phi_inf_reportBody std priv dt stdSeq privSeq sop studies creators
          scan project timestamp total studyHtml
      exact inf_trans hphi (inf_trans hrb
        (inf_app_left _ (inf_app_right _ (inf_refl _))))

/-- Witness for C1 at a concrete date/time mapping whose value contains
`<script>`. -/
theorem c1_document_escapes_witness :
    (("(0008,0020) DA StudyDate", ["<script>alert(1)"]) ∈
        [("(0008,0020) DA StudyDate", ["<script>alert(1)"])] ∧
      "<script>alert(1)" ∈ ["<script>alert(1)"] ∧
      "<script>".data <:+: "<script>alert(1)".data) ∧
    (∀ out, generate_html_report_model [] []
        [("(0008,0020) DA StudyDate", ["<script>alert(1)"])] [] [] [] [] []
        [] [] none "" "" = Except.ok out →
      "&lt;script&gt;".data <:+: out.data ∧
        ¬ ("<script>".data <:+: out.data)) :=
  ⟨⟨by decide, by decide, by decide⟩,
    c1_document_escapes [] [] [("(0008,0020) DA StudyDate", ["<script>alert(1)"])]
      [] [] [] [] [] [] [] none "" "" "(0008,0020) DA StudyDate"
      "<script>alert(1)" ["<script>alert(1)"] (by decide) (by decide) (by decide)⟩

/-!
## C2: behaviour on a nonexistent input file
-/

/-- C2 counterexample: the date/time, standard-elements and
private-elements parsers do not return an empty container on a nonexistent
path; lacking an existence guard, they raise `FileNotFoundError`. -/
theorem c2_counterexample :
    parse_date_time_file none = Except.error PyErr.fileNotFound ∧
    parse_standard_elements_file none = Except.error PyErr.fileNotFound ∧
    parse_private_elements_file none = Except.error PyErr.fileNotFound :=
  ⟨rfl, rfl, rfl⟩

/-- C2 (amended): the five parsers that begin with an existence guard
(sequences, simple list, counts, creators, large private elements) return
their declared empty container on a nonexistent path and never raise; the
standard-elements, private-elements and date/time parsers instead raise
`FileNotFoundError`, and their callers substitute the empty mapping after
their own existence check. -/
theorem c2_missing_file_behaviour :
    parse_sequences_file none = Except.ok [] ∧
    parse_simple_list_file none = Except.ok [] ∧
    parse_counts_file none = Except.ok [] ∧
    parse_private_creators_file none = Except.ok [] ∧
    parse_large_private_file none = Except.ok [] ∧
    parse_standard_elements_file none = Except.error PyErr.fileNotFound ∧
    parse_private_elements_file none = Except.error PyErr.fileNotFound ∧
    parse_date_time_file none = Except.error PyErr.fileNotFound ∧
    load_standard_elements none = [] ∧
    load_private_elements none = [] ∧
    load_date_time none = [] :=
  ⟨rfl, rfl, rfl, rfl, rfl, rfl, rfl, rfl, rfl, rfl, rfl⟩

/-!
## Generic facts about the parser state machines
-/

theorem foldl_const {α β : Type} {f : β → α → β} {l : List α}
    (h : ∀ x ∈ l, ∀ s, f s x = s) : ∀ s, l.foldl f s = s := by
  induction l with
  | nil => intro s; rfl
  | cons y ys ih =>
    intro s
    rw [List.foldl_cons, h y (List.mem_cons_self y ys) s]
    exact ih (fun x hx => h x (List.mem_cons_of_mem y hx)) s

theorem alKeys_alModify {β : Type} (d : List (String × β)) (k : String)
    (f : β → β) : alKeys (alModify d k f) = alKeys d := by
  induction d with
  | nil => rfl
  | cons p ps ih =>
    show alKeys ((if p.1 = k then (k, f p.2) else p) :: alModify ps k f) =
      alKeys (p :: ps)
    unfold alKeys at ih ⊢
    simp only [List.map_cons, ih]
    split
    · rename_i hp
      rw [← hp]
    · rfl

theorem alHasKey_iff {β : Type} (d : List (String × β)) (k : String) :
    alHasKey d k = true ↔ k ∈ alKeys d := by
  unfold alHasKey alKeys
  rw [List.any_eq_true]
  constructor
  · rintro ⟨p, hp, he⟩
    rw [List.mem_map]
    exact ⟨p, hp, by simpa using he⟩
  · intro hm
    obtain ⟨p, hp, he⟩ := List.mem_map.mp hm
    exact ⟨p, hp, by simpa using he⟩

theorem alHasKey_eq_false {β : Type} (d : List (String × β)) (k : String)
    (h : k ∉ alKeys d) : alHasKey d k = false := by
  rcases hb : alHasKey d k with _ | _
  · rfl
  · exact absurd ((alHasKey_iff d k).mp hb) h

/-- A line with two leading spaces cannot match the tag grammar, whose
first character is `(`. -/
theorem matchTagLine_of_indented (l : String)
    (h : pyStartsWith l "  " = true) : matchTagLine l = none := by
  unfold pyStartsWith at h
  rw [List.isPrefixOf_iff_prefix] at h
  obtain ⟨u, hu⟩ := h
  have hd : l.data = ' ' :: ' ' :: u := hu.symm
  unfold matchTagLine
  rw [hd]
  rfl

/-- An indented line is not the phase-1 sentinel header. -/
theorem indented_ne_sentinel (l : String) (h : pyStartsWith l "  " = true) :
    l ≠ "List of Standard Elements" := by
  intro he
  subst he
  exact absurd h (by decide)

theorem phase1Step_skip (st : Phase1State) (l : String)
    (h1 : pyStartsWith l "  " = true) (h2 : pyStrip l ≠ "") :
    phase1Step st l = st := by
  unfold phase1Step
  rw [if_neg (indented_ne_sentinel l h1)]
  simp only [matchTagLine_of_indented l h1, if_neg h2]
  split <;> rfl

theorem phase2Step_none (st : Phase2State) (l : String)
    (hc : st.current = none) (hm : matchTagLine l = none) :
    phase2Step st l = st := by
  unfold phase2Step
  rw [hm, hc]

theorem phase2Step_keys (st : Phase2State) (l : String) :
    alKeys (phase2Step st l).elements = alKeys st.elements := by
  obtain ⟨cur, elems⟩ := st
  unfold phase2Step
  rcases hml : matchTagLine l with _ | ⟨t, vr, kw⟩
  · rcases cur with _ | k
    · rfl
    · show alKeys ((if pyStartsWith l "  " = true then
          ({ current := some k, elements := alModify elems k fun e =>
              { e with values := e.values ++ [pyStrip l] } } : Phase2State)
        else ⟨some k, elems⟩)).elements = alKeys elems
      split
      · show alKeys (alModify elems k fun e =>
            { e with values := e.values ++ [pyStrip l] }) = alKeys elems
        exact alKeys_alModify elems k _
      · rfl
  · rfl

theorem phase2_foldl_keys (lines : List String) :
    ∀ st : Phase2State,
      alKeys ((lines.foldl phase2Step st).elements) = alKeys st.elements := by
  induction lines with
  | nil => intro st; rfl
  | cons l ls ih =>
    intro st
    rw [List.foldl_cons, ih (phase2Step st l), phase2Step_keys]

theorem phase2_foldl_none (mid : List String)
    (h : ∀ l ∈ mid, matchTagLine l = none) (st : Phase2State)
    (hc : st.current = none) : mid.foldl phase2Step st = st := by
  induction mid with
  | nil => rfl
  | cons l ls ih =>
    rw [List.foldl_cons, phase2Step_none st l hc (h l (List.mem_cons_self l ls))]
    exact ih (fun x hx => h x (List.mem_cons_of_mem l hx))

/-- C3: a tag that heads a values block without appearing in the phase-1
listing contributes no catalog entry, and its indented value lines are
recorded nowhere: the parse result is the same as if the block's indented
lines were absent, and the tag is absent from the result's keys. -/
theorem c3_unlisted_tag_dropped (pre mid rest : List String)
    (hdr t vr kw : String)
    (hm : matchTagLine hdr = some (t, vr, kw))
    (hmid : ∀ l ∈ mid, pyStartsWith l "  " = true ∧ pyStrip l ≠ "")
    (hnot : t ∉ alKeys (phase1 (pre ++ hdr :: (mid ++ rest))).elements) :
    parse_standard_elements_lines (pre ++ hdr :: (mid ++ rest)) =
      parse_standard_elements_lines (pre ++ hdr :: rest) ∧
    t ∉ alKeys (parse_standard_elements_lines (pre ++ hdr :: (mid ++ rest))) := by
  have hp1skip : ∀ l ∈ mid, ∀ s : Phase1State, phase1Step s l = s :=
    fun l hl s => phase1Step_skip s l (hmid l hl).1 (hmid l hl).2
  have hmidm : ∀ l ∈ mid, matchTagLine l = none :=
    fun l hl => matchTagLine_of_indented l (hmid l hl).1
  have hph1 : phase1 (pre ++ hdr :: (mid ++ rest)) = phase1 (pre ++ hdr :: rest) := by
    unfold phase1
    rw [List.foldl_append, List.foldl_append, List.foldl_cons, List.foldl_cons,
      List.foldl_append, foldl_const hp1skip]
  rw [hph1] at hnot
  have hkeyf : alHasKey
      ((pre.foldl phase2Step
        ⟨none, (phase1 (pre ++ hdr :: rest)).elements⟩).elements) t = false := by
    apply alHasKey_eq_false
    rw [phase2_foldl_keys]
    exact hnot
  have hstep : ∀ st : Phase2State, alHasKey st.elements t = false →
      phase2Step st hdr = ⟨none, st.elements⟩ := by
    intro st hk
    unfold phase2Step
    simp only [hm, hk]
    rfl
  have hph2 : ∀ E : List (String × TagEntry),
      E = (phase1 (pre ++ hdr :: rest)).elements →
      phase2 E (pre ++ hdr :: (mid ++ rest)) = phase2 E (pre ++ hdr :: rest) := by
    intro E hE
    unfold phase2
    rw [List.foldl_append, List.foldl_append, List.foldl_cons, List.foldl_cons,
      List.foldl_append]
    have hk : alHasKey ((pre.foldl phase2Step ⟨none, E⟩).elements) t = false := by
      rw [hE]; exact hkeyf
    rw [hstep _ hk, phase2_foldl_none mid hmidm _ rfl]
  constructor
  · unfold parse_standard_elements_lines
    rw [hph1]
    exact hph2 _ rfl
  · unfold parse_standard_elements_lines
    rw [hph1, hph2 _ rfl]
    unfold phase2
    rw [phase2_foldl_keys]
    exact hnot

/-- Witness for C3: `(0010,0010)` heads a values block but is absent from
the listing, so its value line `  John Doe` is dropped and the tag absent
from the catalog. -/
theorem c3_unlisted_tag_dropped_witness :
    parse_standard_elements_lines
      (["List of Standard Elements", "(0008,0060) CS Modality", ""] ++
        "(0010,0010) PN PatientName" :: (["  John Doe"] ++ [])) =
      parse_standard_elements_lines
        (["List of Standard Elements", "(0008,0060) CS Modality", ""] ++
          "(0010,0010) PN PatientName" :: []) ∧
    "0010,0010" ∉ alKeys (parse_standard_elements_lines
      (["List of Standard Elements", "(0008,0060) CS Modality", ""] ++
        "(0010,0010) PN PatientName" :: (["  John Doe"] ++ []))) :=
  c3_unlisted_tag_dropped
    ["List of Standard Elements", "(0008,0060) CS Modality", ""]
    ["  John Doe"] [] "(0010,0010) PN PatientName" "0010,0010" "PN" "PatientName"
    (by decide) (by decide) (by decide)

/-!
## C4 and C5: the aggregated total file count
-/

/-- C4: a counts row whose file-count field does not parse as an integer
makes the total-file-count aggregation surface a typed `ValueError`; the
total is never an `ok` value, so the malformed field is neither coerced to
zero nor dropped. -/
theorem c4_malformed_count_fails (rows : List CountsRow) (r : CountsRow)
    (hr : r ∈ rows) (hbad : pyInt r.files = none) :
    totalFiles rows = Except.error PyErr.valueError ∧
      ¬ ∃ n, totalFiles rows = Except.ok n := by
  have hmain : ∀ rows' : List CountsRow, r ∈ rows' →
      sumFiles rows' = Except.error PyErr.valueError := by
    intro rows'
    induction rows' with
    | nil => intro h; cases h
    | cons x xs ih =>
      intro hmem
      rcases List.mem_cons.mp hmem with h | h
      · subst h
        unfold sumFiles
        rw [hbad]
      · unfold sumFiles
        rcases hx : pyInt x.files with _ | n
        · rfl
        · rw [ih h]
  have hne : rows.isEmpty = false := by
    rcases rows with _ | ⟨x, xs⟩
    · cases hr
    · rfl
  have htot : totalFiles rows = Except.error PyErr.valueError := by
    unfold totalFiles
    rw [hne]
    show sumFiles rows = Except.error PyErr.valueError
    exact hmain rows hr
  refine ⟨htot, ?_⟩
  rintro ⟨n, hn⟩
  rw [htot] at hn
  exact Except.noConfusion hn

/-- Witness for C4: a row with file-count text `"abc"` makes the total an
explicit `ValueError`. -/
theorem c4_malformed_count_fails_witness :
    totalFiles [⟨"uid1", "10", "0", "0", "0"⟩, ⟨"uid2", "abc", "0", "0", "0"⟩] =
      Except.error PyErr.valueError ∧
    ¬ ∃ n, totalFiles [⟨"uid1", "10", "0", "0", "0"⟩,
      ⟨"uid2", "abc", "0", "0", "0"⟩] = Except.ok n :=
  c4_malformed_count_fails _ ⟨"uid2", "abc", "0", "0", "0"⟩ (by decide) (by decide)

/-- C5: when every file-count field parses as an integer the aggregated
total is the sum of those integers, and the total over no rows is 0. -/
theorem c5_total_is_sum (rows : List CountsRow) (ns : List Int)
    (h : rows.map (fun r => pyInt r.files) = ns.map some) :
    totalFiles rows = Except.ok ns.sum ∧
      totalFiles ([] : List CountsRow) = Except.ok 0 := by
  constructor
  · have hsum : ∀ rows' (ns' : List Int),
        rows'.map (fun r => pyInt r.files) = ns'.map some →
        sumFiles rows' = Except.ok ns'.sum := by
      intro rows'
      induction rows' with
      | nil =>
        intro ns' h'
        rcases ns' with _ | ⟨m, ms⟩
        · rfl
        · exact absurd h' (by simp)
      | cons x xs ih =>
        intro ns' h'
        rcases ns' with _ | ⟨m, ms⟩
        · exact absurd h' (by simp)
        · simp only [List.map_cons, List.cons.injEq] at h'
          unfold sumFiles
          rw [h'.1, ih ms h'.2]
          simp [List.sum_cons]
    rcases hrows : rows with _ | ⟨x, xs⟩
    · subst hrows
      rcases ns with _ | ⟨m, ms⟩
      · rfl
      · exact absurd h (by simp)
    · subst hrows
      unfold totalFiles
      rw [show (x :: xs).isEmpty = false from rfl]
      exact hsum _ ns h
  · rfl

/-- Witness for C5: counts rows with file counts 10, 20, 30 total 60. -/
theorem c5_total_is_sum_witness :
    totalFiles [⟨"u", "10", "", "", ""⟩, ⟨"v", "20", "", "", ""⟩,
      ⟨"w", "30", "", "", ""⟩] = Except.ok ([10, 20, 30] : List Int).sum ∧
    totalFiles ([] : List CountsRow) = Except.ok 0 :=
  c5_total_is_sum [⟨"u", "10", "", "", ""⟩, ⟨"v", "20", "", "", ""⟩,
    ⟨"w", "30", "", "", ""⟩] [10, 20, 30] (by decide)

/-!
## Dictionary lookup lemmas
-/

theorem alGet_cons_pos {β : Type} (p : String × β) (d : List (String × β))
    (k : String) (h : p.1 = k) : alGet (p :: d) k = some p.2 := by
  unfold alGet
  rw [List.find?_cons_of_pos]
  · rfl
  · simpa using h

theorem alGet_cons_neg {β : Type} (p : String × β) (d : List (String × β))
    (k : String) (h : p.1 ≠ k) : alGet (p :: d) k = alGet d k := by
  unfold alGet
  rw [List.find?_cons_of_neg]
  simpa using h

theorem alHasKey_cons {β : Type} (p : String × β) (d : List (String × β))
    (k : String) : alHasKey (p :: d) k = (decide (p.1 = k) || alHasKey d k) := by
  unfold alHasKey
  rw [List.any_cons]

theorem alGet_append_of_none {β : Type} (d e : List (String × β)) (k : String)
    (h : alHasKey d k = false) : alGet (d ++ e) k = alGet e k := by
  induction d with
  | nil => rfl
  | cons p ps ih =>
    rw [alHasKey_cons] at h
    rcases Bool.or_eq_false_iff.mp h with ⟨h1, h2⟩
    rw [List.cons_append, alGet_cons_neg p _ k (by simpa using h1)]
    exact ih h2

theorem alGet_alSet_self {β : Type} (d : List (String × β)) (k : String)
    (v : β) : alGet (alSet d k v) k = some v := by
  unfold alSet
  split
  · rename_i hk
    induction d with
    | nil => simp [alHasKey] at hk
    | cons p ps ih =>
      rw [List.map_cons]
      by_cases hp : p.1 = k
      · rw [if_pos hp]
        exact alGet_cons_pos (k, v) _ k rfl
      · rw [if_neg hp, alGet_cons_neg p _ k hp]
        rw [alHasKey_cons] at hk
        rcases Bool.or_eq_true_iff.mp hk with h1 | h2
        · exact absurd (by simpa using h1) hp
        · exact ih h2
  · rename_i hk
    rw [Bool.not_eq_true] at hk
    rw [alGet_append_of_none d _ k hk]
    exact alGet_cons_pos (k, v) [] k rfl

theorem alGet_alSet_ne {β : Type} (d : List (String × β)) (k k' : String)
    (v : β) (hne : k' ≠ k) : alGet (alSet d k v) k' = alGet d k' := by
  unfold alSet
  split
  · rename_i hk
    clear hk
    induction d with
    | nil => rfl
    | cons p ps ih =>
      rw [List.map_cons]
      by_cases hp : p.1 = k
      · rw [if_pos hp, alGet_cons_neg (k, v) _ k' (Ne.symm hne),
          alGet_cons_neg p _ k' (by rw [hp]; exact Ne.symm hne)]
        exact ih
      · rw [if_neg hp]
        by_cases hp' : p.1 = k'
        · rw [alGet_cons_pos p _ k' hp', alGet_cons_pos p _ k' hp']
        · rw [alGet_cons_neg p _ k' hp', alGet_cons_neg p _ k' hp']
          exact ih
  · rename_i hk
    clear hk
    induction d with
    | nil =>
      rw [List.nil_append]
      exact alGet_cons_neg (k, v) [] k' (Ne.symm hne)
    | cons p ps ih =>
      rw [List.cons_append]
      by_cases hp' : p.1 = k'
      · rw [alGet_cons_pos p _ k' hp', alGet_cons_pos p _ k' hp']
      · rw [alGet_cons_neg p _ k' hp', alGet_cons_neg p _ k' hp']
        exact ih

theorem alGet_alModify_self {β : Type} (d : List (String × β)) (k : String)
    (f : β → β) (v : β) (h : alGet d k = some v) :
    alGet (alModify d k f) k = some (f v) := by
  induction d with
  | nil => exact Option.noConfusion h
  | cons p ps ih =>
    show alGet ((if p.1 = k then (k, f p.2) else p) :: alModify ps k f) k =
      some (f v)
    by_cases hp : p.1 = k
    · rw [alGet_cons_pos p _ k hp] at h
      have hv : p.2 = v := Option.some.injEq .. ▸ h
      rw [if_pos hp, alGet_cons_pos (k, f p.2) _ k rfl, hv]
    · rw [alGet_cons_neg p _ k hp] at h
      rw [if_neg hp, alGet_cons_neg p _ k hp]
      exact ih h

theorem alGet_alModify_ne {β : Type} (d : List (String × β)) (k k' : String)
    (f : β → β) (hne : k' ≠ k) : alGet (alModify d k f) k' = alGet d k' := by
  induction d with
  | nil => rfl
  | cons p ps ih =>
    show alGet ((if p.1 = k then (k, f p.2) else p) :: alModify ps k f) k' =
      alGet (p :: ps) k'
    by_cases hp : p.1 = k
    · rw [if_pos hp, alGet_cons_neg (k, f p.2) _ k' (Ne.symm hne),
        alGet_cons_neg p _ k' (by rw [hp]; exact Ne.symm hne)]
      exact ih
    · rw [if_neg hp]
      by_cases hp' : p.1 = k'
      · rw [alGet_cons_pos p _ k' hp', alGet_cons_pos p _ k' hp']
      · rw [alGet_cons_neg p _ k' hp', alGet_cons_neg p _ k' hp']
        exact ih

/-!
## C6: the date/time parser's overwrite-on-duplicate-key quirk
-/

/-- Whether a line is a date/time header opening composite key `k`. -/
def dtHeaderIs (k : String) (l : String) : Bool :=
  match matchTagLine l with
  | some (t, vr, kw) => decide (dtKey t vr kw = k)
  | none => false

/-- The values a block contributes to its key: the stripped indented
nonblank lines up to the next tag header. -/
def dtCollect (post : List String) : List String :=
  ((post.takeWhile fun l => (matchTagLine l).isNone).filter
    fun l => pyStartsWith l "  " && decide (pyStrip l ≠ "")).map pyStrip

/-- A matching tag line starts with `(`. -/
theorem matchTagLine_head (l : String) (p : String × String × String)
    (hm : matchTagLine l = some p) : ∃ rest, l.data = '(' :: rest := by
  unfold matchTagLine at hm
  rcases hd : l.data with _ | ⟨c, rest⟩
  · rw [hd] at hm
    exact Option.noConfusion hm
  · rw [hd] at hm
    by_cases hc : c = '('
    · exact ⟨rest, by rw [hc]⟩
    · exfalso
      revert hm
      split
      · rename_i rest' heq
        injection heq with h1 h2
        exact fun _ => hc h1
      · exact fun hm => Option.noConfusion hm

/-- A matching tag line does not strip to the empty string. -/
theorem matchTagLine_not_blank (l : String) (p : String × String × String)
    (hm : matchTagLine l = some p) : pyStrip l ≠ "" := by
  obtain ⟨rest, hd⟩ := matchTagLine_head l p hm
  intro he
  have hmem : '(' ∈ stripL l.data :=
    mem_stripL (by rw [hd]; exact List.mem_cons_self _ _) (by decide)
  have hdat : (pyStrip l).data = stripL l.data := rfl
  rw [he] at hdat
  rw [← hdat] at hmem
  cases hmem

/-- A matching tag line is not the date/time sentinel header. -/
theorem matchTagLine_ne_dt_sentinel (l : String) (p : String × String × String)
    (hm : matchTagLine l = some p) : l ≠ "Date/Time Elements" := by
  intro he
  subst he
  rw [show matchTagLine "Date/Time Elements" = none from by decide] at hm
  exact Option.noConfusion hm

/-- A blank line never matches the tag grammar. -/
theorem matchTagLine_of_blank (l : String) (h : pyStrip l = "") :
    matchTagLine l = none := by
  rcases hm : matchTagLine l with _ | p
  · rfl
  · exact absurd h (matchTagLine_not_blank l p hm)

/-- Processing a header line opens its composite key with a fresh empty
value list. -/
theorem dtStep_header (st : KVState) (l t vr kw : String)
    (hm : matchTagLine l = some (t, vr, kw)) :
    dtStep st l = ⟨some (dtKey t vr kw), alSet st.elements (dtKey t vr kw) []⟩ := by
  unfold dtStep
  rw [if_neg (by
    rintro (h | h)
    · exact matchTagLine_ne_dt_sentinel l _ hm h
    · exact matchTagLine_not_blank l _ hm h)]
  rw [hm]

/-- Once the current key differs from `k` and no later header reopens `k`,
folding the remaining lines leaves `k`'s binding unchanged. -/
theorem dtFold_preserve (k : String) (v : List String) :
    ∀ (post : List String) (st : KVState), st.current ≠ some k →
      (∀ l ∈ post, dtHeaderIs k l = false) →
      alGet st.elements k = some v →
      alGet ((post.foldl dtStep st).elements) k = some v := by
  intro post
  induction post with
  | nil => intro st _ _ hv; exact hv
  | cons l rest ih =>
    intro st hcur hhdr hv
    rw [List.foldl_cons]
    by_cases hskip : l = "Date/Time Elements" ∨ pyStrip l = ""
    · rw [show dtStep st l = st from by unfold dtStep; rw [if_pos hskip]]
      exact ih st hcur (fun x hx => hhdr x (List.mem_cons_of_mem l hx)) hv
    · rcases hm : matchTagLine l with _ | ⟨t, vr, kw⟩
      · rcases hc : st.current with _ | c
        · have hstep : dtStep st l = st := by
            unfold dtStep
            rw [if_neg hskip, hm, hc]
          rw [hstep]
          exact ih st hcur (fun x hx => hhdr x (List.mem_cons_of_mem l hx)) hv
        · have hck : c ≠ k := by
            intro he
            rw [he] at hc
            exact hcur hc
          have hstep : dtStep st l = (if pyStartsWith l "  " = true then
              ({ st with elements :=
                 alModify st.elements c (fun vs => vs ++ [pyStrip l]) } : KVState)
            else st) := by
            unfold dtStep
            rw [if_neg hskip, hm, hc]
          by_cases hind : pyStartsWith l "  " = true
          · rw [hstep, if_pos hind]
            refine ih _ ?_ (fun x hx => hhdr x (List.mem_cons_of_mem l hx)) ?_
            · exact hcur
            · show alGet (alModify st.elements c (fun vs => vs ++ [pyStrip l])) k =
                some v
              rw [alGet_alModify_ne st.elements c k _ (Ne.symm hck)]
              exact hv
          · rw [hstep, if_neg hind]
            exact ih st hcur (fun x hx => hhdr x (List.mem_cons_of_mem l hx)) hv
      · have hkk : dtKey t vr kw ≠ k := by
          have := hhdr l (List.mem_cons_self l rest)
          unfold dtHeaderIs at this
          rw [hm] at this
          simpa using this
        rw [dtStep_header st l t vr kw hm]
        refine ih _ (by simpa using fun he => hkk he) (fun x hx => hhdr x (List.mem_cons_of_mem l hx)) ?_
        show alGet (alSet st.elements (dtKey t vr kw) []) k = some v
        rw [alGet_alSet_ne st.elements _ k [] (Ne.symm hkk)]
        exact hv

/-- While `k` is the current key and no later header reopens `k`, folding
the remaining lines appends exactly the collected indented lines. -/
theorem dtFold_collect (k : String) :
    ∀ (post : List String) (st : KVState) (v : List String),
      st.current = some k →
      alGet st.elements k = some v →
      (∀ l ∈ post, dtHeaderIs k l = false) →
      alGet ((post.foldl dtStep st).elements) k = some (v ++ dtCollect post) := by
  intro post
  induction post with
  | nil => intro st v _ hv _; simpa [dtCollect] using hv
  | cons l rest ih =>
    intro st v hcur hv hhdr
    rw [List.foldl_cons]
    by_cases hskip : l = "Date/Time Elements" ∨ pyStrip l = ""
    · have hstep : dtStep st l = st := by unfold dtStep; rw [if_pos hskip]
      have hmn : matchTagLine l = none := by
        rcases hskip with h | h
        · subst h; decide
        · exact matchTagLine_of_blank l h
      have hcol : dtCollect (l :: rest) = dtCollect rest := by
        unfold dtCollect
        rw [List.takeWhile_cons, if_pos (by rw [hmn]; rfl), List.filter_cons]
        rw [if_neg (by
          rcases hskip with h | h
          · subst h; decide
          · simp [h])]
      rw [hstep, hcol]
      exact ih st v hcur hv fun x hx => hhdr x (List.mem_cons_of_mem l hx)
    · rcases hm : matchTagLine l with _ | ⟨t, vr, kw⟩
      · have hstep : dtStep st l =
            (if pyStartsWith l "  " = true then
               ({ st with elements :=
                  alModify st.elements k fun vs => vs ++ [pyStrip l] } : KVState)
             else st) := by
          unfold dtStep
          rw [if_neg hskip, hm, hcur]
        have hcolw : (matchTagLine l).isNone = true := by rw [hm]; rfl
        have hnb : pyStrip l ≠ "" := by
          intro h
          exact hskip (Or.inr h)
        by_cases hind : pyStartsWith l "  " = true
        · have hcol : dtCollect (l :: rest) = pyStrip l :: dtCollect rest := by
            unfold dtCollect
            rw [List.takeWhile_cons, if_pos hcolw, List.filter_cons,
              if_pos (by simp [hind, hnb]), List.map_cons]
          rw [hstep, if_pos hind, hcol]
          have hv' : alGet (alModify st.elements k (fun vs => vs ++ [pyStrip l])) k =
              some (v ++ [pyStrip l]) :=
            alGet_alModify_self st.elements k _ v hv
          have := ih
            ({ st with
                elements := alModify st.elements k (fun vs => vs ++ [pyStrip l]) } :
              KVState)
            (v ++ [pyStrip l]) hcur hv'
            (fun x hx => hhdr x (List.mem_cons_of_mem l hx))
          rw [this]
          simp
        · have hcol : dtCollect (l :: rest) = dtCollect rest := by
            unfold dtCollect
            rw [List.takeWhile_cons, if_pos hcolw, List.filter_cons,
              if_neg (by simp [hind])]
          rw [hstep, if_neg hind, hcol]
          exact ih st v hcur hv fun x hx => hhdr x (List.mem_cons_of_mem l hx)
      · have hkk : dtKey t vr kw ≠ k := by
          have := hhdr l (List.mem_cons_self l rest)
          unfold dtHeaderIs at this
          rw [hm] at this
          simpa using this
        have hcol : dtCollect (l :: rest) = [] := by
          unfold dtCollect
          rw [List.takeWhile_cons, if_neg (by rw [hm]; simp)]
          rfl
        rw [dtStep_header st l t vr kw hm, hcol]
        have hpres := dtFold_preserve k v rest
          ⟨some (dtKey t vr kw), alSet st.elements (dtKey t vr kw) []⟩
          (by simpa using fun he => hkk he)
          (fun x hx => hhdr x (List.mem_cons_of_mem l hx))
          (by
            show alGet (alSet st.elements (dtKey t vr kw) []) k = some v
            rw [alGet_alSet_ne st.elements _ k [] (Ne.symm hkk)]
            exact hv)
        simpa using hpres

/-- C6: when a composite key's last header occurrence is followed only by
lines that never reopen that key, the parsed mapping binds the key to
exactly that block's collected values: earlier occurrences' values are
gone (overwrite-on-duplicate). -/
theorem c6_dt_overwrite (pre post : List String) (hdr t vr kw : String)
    (hm : matchTagLine hdr = some (t, vr, kw))
    (hpost : ∀ l ∈ post, dtHeaderIs (dtKey t vr kw) l = false) :
    alGet (parse_date_time_lines (pre ++ hdr :: post)) (dtKey t vr kw) =
      some (dtCollect post) := by
  unfold parse_date_time_lines
  rw [List.foldl_append, List.foldl_cons,
    dtStep_header (pre.foldl dtStep ⟨none, []⟩) hdr t vr kw hm]
  have := dtFold_collect (dtKey t vr kw) post
    ⟨some (dtKey t vr kw),
      alSet (pre.foldl dtStep ⟨none, []⟩).elements (dtKey t vr kw) []⟩
    [] rfl (alGet_alSet_self ..) hpost
  simpa using this

/-- Witness for C6: the same composite key heads two blocks; the parse
keeps only the second block's values. -/
theorem c6_dt_overwrite_witness :
    alGet (parse_date_time_lines
      (["Date/Time Elements", "(0008,0020) DA StudyDate", "  20200101"] ++
        "(0008,0020) DA StudyDate" :: ["  20210505"]))
      (dtKey "0008,0020" "DA" "StudyDate") =
      some (dtCollect ["  20210505"]) :=
  c6_dt_overwrite
    ["Date/Time Elements", "(0008,0020) DA StudyDate", "  20200101"]
    ["  20210505"] "(0008,0020) DA StudyDate" "0008,0020" "DA" "StudyDate"
    (by decide) (by decide)

/-!
## C8: the sequence parser's skip rule and extend-on-reopen behaviour
-/

/-- Whether a line opens (or reopens) the sequence key `k`: it is neither
skipped nor indented, and strips to `k`. -/
def seqOpens (k : String) (l : String) : Bool :=
  !seqSkip l && !pyStartsWith l "  " && decide (pyStrip l = k)

/-- The values appended to the current key by the lines up to the next
opener: stripped indented nonblank lines. -/
def seqCollect (post : List String) : List String :=
  ((post.takeWhile fun l => seqSkip l || pyStartsWith l "  ").filter
    fun l => pyStartsWith l "  " && !seqSkip l).map pyStrip

theorem seqStep_skip (st : KVState) (l : String) (h : seqSkip l = true) :
    seqStep st l = st := by
  unfold seqStep
  rw [if_pos h]

theorem seqStep_open (st : KVState) (l : String) (hsk : seqSkip l = false)
    (hin : pyStartsWith l "  " = false) :
    seqStep st l = ⟨some (pyStrip l),
      if alHasKey st.elements (pyStrip l) then st.elements
      else st.elements ++ [(pyStrip l, [])]⟩ := by
  unfold seqStep
  rw [if_neg (by simp [hsk]), if_neg (by simp [hin])]

theorem alGet_append_left {β : Type} (d e : List (String × β)) (k : String)
    (v : β) (h : alGet d k = some v) : alGet (d ++ e) k = some v := by
  induction d with
  | nil => exact Option.noConfusion h
  | cons p ps ih =>
    rw [List.cons_append]
    by_cases hp : p.1 = k
    · rw [alGet_cons_pos p _ k hp] at h
      rw [alGet_cons_pos p _ k hp]
      exact h
    · rw [alGet_cons_neg p _ k hp] at h
      rw [alGet_cons_neg p _ k hp]
      exact ih h

theorem alGet_isSome_of_hasKey {β : Type} (d : List (String × β)) (k : String)
    (h : alHasKey d k = true) : ∃ v, alGet d k = some v := by
  induction d with
  | nil => simp [alHasKey] at h
  | cons p ps ih =>
    by_cases hp : p.1 = k
    · exact ⟨p.2, alGet_cons_pos p _ k hp⟩
    · rw [alHasKey_cons] at h
      rcases Bool.or_eq_true_iff.mp h with h1 | h2
      · exact absurd (by simpa using h1) hp
      · rw [alGet_cons_neg p _ k hp]
        exact ih h2

theorem alGet_none_of_hasKey_false {β : Type} (d : List (String × β))
    (k : String) (h : alHasKey d k = false) : alGet d k = none := by
  induction d with
  | nil => rfl
  | cons p ps ih =>
    rw [alHasKey_cons] at h
    rcases Bool.or_eq_false_iff.mp h with ⟨h1, h2⟩
    rw [alGet_cons_neg p _ k (by simpa using h1)]
    exact ih h2

/-- Once the current key differs from `k` and no later line reopens `k`,
folding the remaining lines leaves `k`'s binding unchanged. -/
theorem seqFold_preserve (k : String) (v : List String) :
    ∀ (post : List String) (st : KVState), st.current ≠ some k →
      (∀ l ∈ post, seqOpens k l = false) →
      alGet st.elements k = some v →
      alGet ((post.foldl seqStep st).elements) k = some v := by
  intro post
  induction post with
  | nil => intro st _ _ hv; exact hv
  | cons l rest ih =>
    intro st hcur hop hv
    rw [List.foldl_cons]
    rcases hsk : seqSkip l with _ | _
    · rcases hin : pyStartsWith l "  " with _ | _
      · -- opener of some key k' ≠ k
        have hk' : pyStrip l ≠ k := by
          have := hop l (List.mem_cons_self l rest)
          unfold seqOpens at this
          rw [hsk, hin] at this
          simpa using this
        rw [seqStep_open st l hsk hin]
        refine ih _ (by simpa using fun he => hk' he)
          (fun x hx => hop x (List.mem_cons_of_mem l hx)) ?_
        show alGet (if alHasKey st.elements (pyStrip l) then st.elements
          else st.elements ++ [(pyStrip l, [])]) k = some v
        split
        · exact hv
        · exact alGet_append_left _ _ k v hv
      · -- indented line
        rcases hc : st.current with _ | c
        · have hstep : seqStep st l = st := by
            unfold seqStep
            rw [if_neg (by simp [hsk]), if_pos (by simp [hin]), hc]
          rw [hstep]
          exact ih st hcur (fun x hx => hop x (List.mem_cons_of_mem l hx)) hv
        · have hck : c ≠ k := by
            intro he
            rw [he] at hc
            exact hcur hc
          have hstep : seqStep st l =
              ({ st with elements :=
                 alModify st.elements c (fun vs => vs ++ [pyStrip l]) } : KVState) := by
            unfold seqStep
            rw [if_neg (by simp [hsk]), if_pos (by simp [hin]), hc]
          rw [hstep]
          refine ih _ hcur (fun x hx => hop x (List.mem_cons_of_mem l hx)) ?_
          show alGet (alModify st.elements c (fun vs => vs ++ [pyStrip l])) k =
            some v
          rw [alGet_alModify_ne st.elements c k _ (Ne.symm hck)]
          exact hv
    · rw [seqStep_skip st l hsk]
      exact ih st hcur (fun x hx => hop x (List.mem_cons_of_mem l hx)) hv

/-- While `k` is the current key and no later line reopens `k`, folding the
remaining lines appends exactly the collected indented lines. -/
theorem seqFold_collect (k : String) :
    ∀ (post : List String) (st : KVState) (v : List String),
      st.current = some k →
      alGet st.elements k = some v →
      (∀ l ∈ post, seqOpens k l = false) →
      alGet ((post.foldl seqStep st).elements) k = some (v ++ seqCollect post) := by
  intro post
  induction post with
  | nil => intro st v _ hv _; simpa [seqCollect] using hv
  | cons l rest ih =>
    intro st v hcur hv hop
    rw [List.foldl_cons]
    rcases hsk : seqSkip l with _ | _
    · rcases hin : pyStartsWith l "  " with _ | _
      · -- opener: the collected block ends here
        have hk' : pyStrip l ≠ k := by
          have := hop l (List.mem_cons_self l rest)
          unfold seqOpens at this
          rw [hsk, hin] at this
          simpa using this
        have hcol : seqCollect (l :: rest) = [] := by
          unfold seqCollect
          rw [List.takeWhile_cons, if_neg (by simp [hsk, hin])]
          rfl
        rw [seqStep_open st l hsk hin, hcol]
        have hget : alGet (if alHasKey st.elements (pyStrip l) then st.elements
            else st.elements ++ [(pyStrip l, [])]) k = some v := by
          split
          · exact hv
          · exact alGet_append_left _ _ k v hv
        have hpres := seqFold_preserve k v rest
          ⟨some (pyStrip l),
            if alHasKey st.elements (pyStrip l) then st.elements
            else st.elements ++ [(pyStrip l, [])]⟩
          (by simpa using fun he => hk' he)
          (fun x hx => hop x (List.mem_cons_of_mem l hx)) hget
        simpa using hpres
      · -- indented line appends to k
        have hstep : seqStep st l =
            ({ st with elements :=
               alModify st.elements k (fun vs => vs ++ [pyStrip l]) } : KVState) := by
          unfold seqStep
          rw [if_neg (by simp [hsk]), if_pos (by simp [hin]), hcur]
        have hcol : seqCollect (l :: rest) = pyStrip l :: seqCollect rest := by
          unfold seqCollect
          rw [List.takeWhile_cons, if_pos (by simp [hsk, hin]), List.filter_cons,
            if_pos (by simp [hsk, hin]), List.map_cons]
        rw [hstep, hcol]
        have hv' : alGet (alModify st.elements k (fun vs => vs ++ [pyStrip l])) k =
            some (v ++ [pyStrip l]) :=
          alGet_alModify_self st.elements k _ v hv
        have := ih
          ({ st with
              elements := alModify st.elements k (fun vs => vs ++ [pyStrip l]) } :
            KVState)
          (v ++ [pyStrip l]) hcur hv'
          (fun x hx => hop x (List.mem_cons_of_mem l hx))
        rw [this]
        simp
    · -- skipped line
      have hcol : seqCollect (l :: rest) = seqCollect rest := by
        unfold seqCollect
        rw [List.takeWhile_cons, if_pos (by simp [hsk]), List.filter_cons,
          if_neg (by simp [hsk])]
      rw [seqStep_skip st l hsk, hcol]
      exact ih st v hcur hv fun x hx => hop x (List.mem_cons_of_mem l hx)

/-- C8 counterexample: the line `Standard Sequence Extra` is not equal to
either header label and is non-blank and non-indented, so the claim says it
opens a key; the parser skips it (the header check is a prefix test) and the
result is empty. -/
theorem c8_counterexample :
    parse_sequences_lines ["Standard Sequence Extra"] = [] ∧
    "Standard Sequence Extra" ≠ "Standard Sequence" ∧
    "Standard Sequence Extra" ≠ "Private Sequence" ∧
    pyStrip "Standard Sequence Extra" ≠ "" ∧
    pyStartsWith "Standard Sequence Extra" "  " = false := by
  refine ⟨rfl, ?_, ?_, ?_, rfl⟩ <;> decide

/-- C8 (amended): lines whose text starts with either literal header
prefix, and blank lines, are skipped (no key opened, nothing recorded);
every other non-indented line opens a key, and re-encountering a key that
was already opened reuses and extends its existing value list: after the
reopening line, the key's binding is its previous value list followed by
the newly collected indented lines. -/
theorem c8_sequence_reuse (l1 l2 : List String) (kline : String)
    (hsk : seqSkip kline = false) (hin : pyStartsWith kline "  " = false)
    (hl2 : ∀ l ∈ l2, seqOpens (pyStrip kline) l = false) :
    (∀ (st : KVState) (l : String), seqSkip l = true → seqStep st l = st) ∧
    alGet (parse_sequences_lines (l1 ++ kline :: l2)) (pyStrip kline) =
      some ((alGet (parse_sequences_lines l1) (pyStrip kline)).getD [] ++
        seqCollect l2) := by
  refine ⟨seqStep_skip, ?_⟩
  unfold parse_sequences_lines
  rw [List.foldl_append, List.foldl_cons,
    seqStep_open (l1.foldl seqStep ⟨none, []⟩) kline hsk hin]
  by_cases hhk : alHasKey (l1.foldl seqStep
      (⟨none, []⟩ : KVState)).elements (pyStrip kline) = true
  · obtain ⟨v, hval⟩ := alGet_isSome_of_hasKey _ _ hhk
    have hif : (if alHasKey (l1.foldl seqStep
          (⟨none, []⟩ : KVState)).elements (pyStrip kline) then
        (l1.foldl seqStep (⟨none, []⟩ : KVState)).elements
      else (l1.foldl seqStep (⟨none, []⟩ : KVState)).elements ++
        [(pyStrip kline, [])]) =
        (l1.foldl seqStep (⟨none, []⟩ : KVState)).elements := by
      rw [if_pos hhk]
    rw [hif]
    have := seqFold_collect (pyStrip kline) l2
      ⟨some (pyStrip kline), (l1.foldl seqStep (⟨none, []⟩ : KVState)).elements⟩
      v rfl hval hl2
    rw [this, hval]
    rfl
  · rw [Bool.not_eq_true] at hhk
    have hnone := alGet_none_of_hasKey_false _ _ hhk
    have hif : (if alHasKey (l1.foldl seqStep
          (⟨none, []⟩ : KVState)).elements (pyStrip kline) then
        (l1.foldl seqStep (⟨none, []⟩ : KVState)).elements
      else (l1.foldl seqStep (⟨none, []⟩ : KVState)).elements ++
        [(pyStrip kline, [])]) =
        (l1.foldl seqStep (⟨none, []⟩ : KVState)).elements ++
          [(pyStrip kline, [])] := by
      rw [if_neg (by simp [hhk])]
    rw [hif]
    have hget : alGet ((l1.foldl seqStep (⟨none, []⟩ : KVState)).elements ++
        [(pyStrip kline, [])]) (pyStrip kline) = some [] := by
      rw [alGet_append_of_none _ _ _ hhk]
      exact alGet_cons_pos (pyStrip kline, []) [] (pyStrip kline) rfl
    have := seqFold_collect (pyStrip kline) l2
      ⟨some (pyStrip kline),
        (l1.foldl seqStep (⟨none, []⟩ : KVState)).elements ++
          [(pyStrip kline, [])]⟩
      [] rfl hget hl2
    rw [this, hnone]
    rfl

/-- Witness for C8: reopening `SeqA` extends its list with the new block's
values instead of resetting it. -/
theorem c8_sequence_reuse_witness :
    (∀ (st : KVState) (l : String), seqSkip l = true → seqStep st l = st) ∧
    alGet (parse_sequences_lines (["SeqA", "  v1"] ++ "SeqA" :: ["  v2"]))
      (pyStrip "SeqA") =
      some ((alGet (parse_sequences_lines ["SeqA", "  v1"])
        (pyStrip "SeqA")).getD [] ++ seqCollect ["  v2"]) :=
  c8_sequence_reuse ["SeqA", "  v1"] ["  v2"] "SeqA"
    (by decide) (by decide) (by decide)

/-!
## C9: malformed lines in the large-private-elements parser
-/

/-- C9 counterexample: a line with the `Hash: ` prefix and the `, count: `
separator whose trailing text is not an integer is not ignored: `int(...)`
raises `ValueError` and the parser fails. -/
theorem c9_counterexample :
    parse_large_private_lines ["Hash: ab, count: xx"] =
      Except.error PyErr.valueError ∧
    lpeLine "Hash: ab, count: xx" = Except.error PyErr.valueError :=
  ⟨rfl, rfl⟩

/-- C9 (amended): a line without the `Hash: ` prefix, or without the
`, count: ` separator, is ignored and contributes nothing; when every line
either is ignored or carries an integer count, the parser returns normally
with exactly the matching rows; but a line with prefix and separator whose
count text is not an integer makes the parser raise `ValueError` instead of
being ignored. -/
theorem c9_lpe_malformed (lines : List String)
    (h : ∀ l ∈ lines, ∃ o, lpeLine l = Except.ok o) :
    (∀ l : String,
      (pyStartsWith (pyStrip l) "Hash: " = false ∨
        pySplitOnce (pyStrip l) ", count: " = none) →
      lpeLine l = Except.ok none) ∧
    parse_large_private_lines lines =
      Except.ok (lines.filterMap fun l =>
        match lpeLine l with
        | Except.ok o => o
        | Except.error _ => none) := by
  constructor
  · intro l hl
    unfold lpeLine
    rcases hl with hl | hl
    · rw [if_neg (by simp [hl])]
    · by_cases hpre : pyStartsWith (pyStrip l) "Hash: " = true
      · rw [if_pos hpre, hl]
      · rw [if_neg hpre]
  · induction lines with
    | nil => rfl
    | cons l ls ih =>
      obtain ⟨o, ho⟩ := h l (List.mem_cons_self l ls)
      have hrest := ih fun x hx => h x (List.mem_cons_of_mem l hx)
      simp only [parse_large_private_lines]
      rw [ho, hrest, List.filterMap_cons]
      simp only [ho]
      cases o
      · rfl
      · rfl

/-- Witness for C9's amended theorem: the matching line parses, the
prefix-less and separator-less lines are ignored. -/
theorem c9_lpe_malformed_witness :
    (∀ l : String,
      (pyStartsWith (pyStrip l) "Hash: " = false ∨
        pySplitOnce (pyStrip l) ", count: " = none) →
      lpeLine l = Except.ok none) ∧
    parse_large_private_lines ["Hash: abc, count: 3", "junk", "Hash: nocount"] =
      Except.ok (["Hash: abc, count: 3", "junk", "Hash: nocount"].filterMap fun l =>
        match lpeLine l with
        | Except.ok o => o
        | Except.error _ => none) :=
  c9_lpe_malformed ["Hash: abc, count: 3", "junk", "Hash: nocount"]
    (by
      intro l hl
      fin_cases hl
      · exact ⟨some ⟨"abc", 3⟩, rfl⟩
      · exact ⟨none, rfl⟩
      · exact ⟨none, rfl⟩)

/-!
## C10: stray lines in phase 2 of the standard-elements parser
-/

/-- C10: in phase 2, a non-blank line that neither matches the tag grammar
nor has two leading spaces is a no-op: the current-tag context and the
elements are unchanged, and the phase-2 result over any file equals the
result with the stray line deleted, so indented lines after it still append
to the tag opened before it. -/
theorem c10_stray_line_no_op (stray : String)
    (hs1 : pyStrip stray ≠ "") (hs2 : matchTagLine stray = none)
    (hs3 : pyStartsWith stray "  " = false) :
    (∀ st : Phase2State, phase2Step st stray = st) ∧
    ∀ (E : List (String × TagEntry)) (pre suffix : List String),
      phase2 E (pre ++ stray :: suffix) = phase2 E (pre ++ suffix) := by
  have hstep : ∀ st : Phase2State, phase2Step st stray = st := by
    intro st
    obtain ⟨cur, elems⟩ := st
    unfold phase2Step
    rw [hs2]
    rcases cur with _ | t
    · rfl
    · show (if pyStartsWith stray "  " = true then
          ({ current := some t, elements := alModify elems t fun e =>
              { e with values := e.values ++ [pyStrip stray] } } : Phase2State)
        else ⟨some t, elems⟩) = ⟨some t, elems⟩
      rw [if_neg (by simp [hs3])]
  refine ⟨hstep, ?_⟩
  intro E pre suffix
  unfold phase2
  rw [List.foldl_append, List.foldl_append, List.foldl_cons, hstep]

/-- Witness for C10: a stray `NOTE` line between a header and its indented
values changes nothing. -/
theorem c10_stray_line_no_op_witness :
    (∀ st : Phase2State, phase2Step st "NOTE" = st) ∧
    ∀ (E : List (String × TagEntry)) (pre suffix : List String),
      phase2 E (pre ++ "NOTE" :: suffix) = phase2 E (pre ++ suffix) :=
  c10_stray_line_no_op "NOTE" (by decide) (by decide) (by decide)

/-!
## C7: the large-hash table: stable descending sort, top 10, note
-/

theorem leB_trans : ∀ a b c : LpeRow,
    decide (b.cnt ≤ a.cnt) → decide (c.cnt ≤ b.cnt) → decide (c.cnt ≤ a.cnt) := by
  intro a b c hab hbc
  simp only [decide_eq_true_eq] at *
  omega

theorem leB_total : ∀ a b : LpeRow,
    decide (b.cnt ≤ a.cnt) || decide (a.cnt ≤ b.cnt) := by
  intro a b
  simp only [Bool.or_eq_true, decide_eq_true_eq]
  omega

/-- C7 (amended): with more than 10 unique hashes, the rendered study
summary contains the large-hash table built from exactly the first 10 rows
of the stable descending sort of the parsed rows — a permutation of the
input, with non-increasing counts, where any pair already in
counts-descending (or tied) input order keeps its relative order — followed
by a note stating that only the top 10 of the total number of unique hashes
are shown (the omitted count itself is not printed; it is implied by the
total). -/
theorem c7_top10_table (large : List LpeRow) (h10 : large.length > 10) :
    (pySortDesc large).Perm large ∧
    (pySortDesc large).Pairwise (fun a b => b.cnt ≤ a.cnt) ∧
    (∀ a b : LpeRow, b.cnt ≤ a.cnt → List.Sublist [a, b] large →
      List.Sublist [a, b] (pySortDesc large)) ∧
    ((pySortDesc large).take 10).length = 10 ∧
    (∀ (counts : List CountsRow) (out : String),
      sectionStudySummary counts large = Except.ok out →
      (lpeTable large).data <:+: out.data ∧
        (lpeNote large.length).data <:+: out.data) := by
  have hne : large ≠ [] := by
    intro he
    rw [he] at h10
    exact absurd h10 (by decide)
  refine ⟨List.mergeSort_perm large _, ?_, ?_, ?_, ?_⟩
  · have := List.sorted_mergeSort leB_trans leB_total large
    exact this.imp fun h => by simpa using h
  · intro a b hab hsub
    exact List.pair_sublist_mergeSort leB_trans leB_total (by simpa using hab) hsub
  · rw [List.length_take]
    unfold pySortDesc
    rw [List.length_mergeSort]
    omega
  · intro counts out hout
    unfold sectionStudySummary at hout
    rcases hcp : countsPartE counts with e | cp
    · rw [hcp] at hout
      exact Except.noConfusion hout
    · rw [hcp] at hout
      have hout' : "<h2>Study Summary</h2>" ++ cp ++
          "<h3>Large Private Elements</h3>" ++ lpePart large = out := by
        have := hout
        injection this
      subst hout'
      have htab : (lpeTable large).data <:+: (lpePart large).data := by
        unfold lpePart
        rw [if_pos hne, if_pos h10]
        apply inf_app_left
        apply inf_app_right
        exact inf_refl _
      have hnote : (lpeNote large.length).data <:+: (lpePart large).data := by
        unfold lpePart
        rw [if_pos hne, if_pos h10]
        apply inf_app_right
        exact inf_refl _
      constructor
      · exact inf_trans htab (inf_app_right _ (inf_refl _))
      · exact inf_trans hnote (inf_app_right _ (inf_refl _))

/-- Witness for C7's amended theorem at 11 rows. -/
theorem c7_top10_table_witness :
    (pySortDesc [⟨"h01", 5⟩, ⟨"h02", 100⟩, ⟨"h03", 2⟩, ⟨"h04", 7⟩, ⟨"h05", 9⟩,
      ⟨"h06", 1⟩, ⟨"h07", 4⟩, ⟨"h08", 8⟩, ⟨"h09", 3⟩, ⟨"h10", 6⟩,
      ⟨"h11", 2⟩]).Perm [⟨"h01", 5⟩, ⟨"h02", 100⟩, ⟨"h03", 2⟩, ⟨"h04", 7⟩,
      ⟨"h05", 9⟩, ⟨"h06", 1⟩, ⟨"h07", 4⟩, ⟨"h08", 8⟩, ⟨"h09", 3⟩, ⟨"h10", 6⟩,
      ⟨"h11", 2⟩] ∧
    (pySortDesc [⟨"h01", 5⟩, ⟨"h02", 100⟩, ⟨"h03", 2⟩, ⟨"h04", 7⟩, ⟨"h05", 9⟩,
      ⟨"h06", 1⟩, ⟨"h07", 4⟩, ⟨"h08", 8⟩, ⟨"h09", 3⟩, ⟨"h10", 6⟩,
      ⟨"h11", 2⟩]).Pairwise (fun a b => b.cnt ≤ a.cnt) ∧
    (∀ a b : LpeRow, b.cnt ≤ a.cnt →
      List.Sublist [a, b] [⟨"h01", 5⟩, ⟨"h02", 100⟩, ⟨"h03", 2⟩, ⟨"h04", 7⟩,
        ⟨"h05", 9⟩, ⟨"h06", 1⟩, ⟨"h07", 4⟩, ⟨"h08", 8⟩, ⟨"h09", 3⟩, ⟨"h10", 6⟩,
        ⟨"h11", 2⟩] →
      List.Sublist [a, b] (pySortDesc [⟨"h01", 5⟩, ⟨"h02", 100⟩, ⟨"h03", 2⟩,
        ⟨"h04", 7⟩, ⟨"h05", 9⟩, ⟨"h06", 1⟩, ⟨"h07", 4⟩, ⟨"h08", 8⟩, ⟨"h09", 3⟩,
        ⟨"h10", 6⟩, ⟨"h11", 2⟩])) ∧
    ((pySortDesc [⟨"h01", 5⟩, ⟨"h02", 100⟩, ⟨"h03", 2⟩, ⟨"h04", 7⟩, ⟨"h05", 9⟩,
      ⟨"h06", 1⟩, ⟨"h07", 4⟩, ⟨"h08", 8⟩, ⟨"h09", 3⟩, ⟨"h10", 6⟩,
      ⟨"h11", 2⟩]).take 10).length = 10 ∧
    (∀ (counts : List CountsRow) (out : String),
      sectionStudySummary counts [⟨"h01", 5⟩, ⟨"h02", 100⟩, ⟨"h03", 2⟩,
        ⟨"h04", 7⟩, ⟨"h05", 9⟩, ⟨"h06", 1⟩, ⟨"h07", 4⟩, ⟨"h08", 8⟩, ⟨"h09", 3⟩,
        ⟨"h10", 6⟩, ⟨"h11", 2⟩] = Except.ok out →
      (lpeTable [⟨"h01", 5⟩, ⟨"h02", 100⟩, ⟨"h03", 2⟩, ⟨"h04", 7⟩, ⟨"h05", 9⟩,
        ⟨"h06", 1⟩, ⟨"h07", 4⟩, ⟨"h08", 8⟩, ⟨"h09", 3⟩, ⟨"h10", 6⟩,
        ⟨"h11", 2⟩]).data <:+: out.data ∧
        (lpeNote ([⟨"h01", 5⟩, ⟨"h02", 100⟩, ⟨"h03", 2⟩, ⟨"h04", 7⟩, ⟨"h05", 9⟩,
          ⟨"h06", 1⟩, ⟨"h07", 4⟩, ⟨"h08", 8⟩, ⟨"h09", 3⟩, ⟨"h10", 6⟩,
          ⟨"h11", 2⟩] : List LpeRow).length).data <:+: out.data) :=
  c7_top10_table [⟨"h01", 5⟩, ⟨"h02", 100⟩, ⟨"h03", 2⟩, ⟨"h04", 7⟩, ⟨"h05", 9⟩,
    ⟨"h06", 1⟩, ⟨"h07", 4⟩, ⟨"h08", 8⟩, ⟨"h09", 3⟩, ⟨"h10", 6⟩, ⟨"h11", 2⟩]
    (by decide)

/-- 23 rows with equal counts: 13 unique hashes are omitted from the
rendered table. -/
def c7Rows : List LpeRow :=
  [⟨"a", 2⟩, ⟨"b", 2⟩, ⟨"c", 2⟩, ⟨"d", 2⟩, ⟨"e", 2⟩, ⟨"f", 2⟩, ⟨"g", 2⟩,
   ⟨"h", 2⟩, ⟨"i", 2⟩, ⟨"j", 2⟩, ⟨"k", 2⟩, ⟨"l", 2⟩, ⟨"m", 2⟩, ⟨"n", 2⟩,
   ⟨"o", 2⟩, ⟨"p", 2⟩, ⟨"q", 2⟩, ⟨"r", 2⟩, ⟨"s", 2⟩, ⟨"t", 2⟩, ⟨"u", 2⟩,
   ⟨"v", 2⟩, ⟨"w", 2⟩]

/-- C7 counterexample: with 23 unique hashes, 13 are omitted beyond the 10
shown, but the truncation note the renderer emits after the table does not
state that count: the note for this input contains no occurrence of `13`;
it states the total (`Showing top 10 of 23 unique hashes`) instead. -/
theorem c7_counterexample :
    c7Rows.length = 23 ∧ 23 - 10 = 13 ∧
    ¬ ("13".data <:+: (lpeNote c7Rows.length).data) ∧
    "Showing top 10 of 23 unique hashes".data <:+: (lpeNote c7Rows.length).data :=
  ⟨rfl, rfl, by decide, by decide⟩

end TagSniffer